import Mathlib

/-!
The request pipeline and lifecycle of `server-enhanced.js`.

A shallow embedding of `ansible/roles/webserver/files/app/server-enhanced.js`.

The module registers, in source order, an Express layer stack
(`helmet`, `cors`, the rate limiter mounted at `/api/`, the metrics middleware,
the two body parsers, four `GET` routes, the error handler and the `*`
fallback), a MongoDB connection with its callbacks, and a `SIGINT` handler.
The embedding keeps that structure:

* `appStack` is the layer stack in registration order and `dispatch` is the
  `next()` loop of the Express router that walks it;
* every layer of the source is a case of `runStage`, the error handler is
  `errorHandler`;
* the `res.on('finish', ...)` callback is `finishHook`;
* the connection callbacks are `mongoStep`;
* the `SIGINT` handler is `shutdownStep`.

The packages that the module only configures (`cors`, `express-rate-limit`,
the body parsers, `mongoose`) are described by what they do with the options
given in the source. Times are milliseconds as returned by `Date.now()`. A
request path is held as the list of its segments (`/api/data` is
`["api", "data"]`, `/` is `[]`) written in the case of the registered patterns,
so that the router's matching is equality of segments. The model describes the
application once every top-level statement of the module has run.
-/

namespace ServerEnhanced

/-! ## Values shared by the layers -/

/-- The JavaScript expression `a || d` on an optional string: the default is
taken when the value is `undefined` or the empty string. -/
def jsOr (a : Option String) (d : String) : String :=
  match a with
  | some s => if s = "" then d else s
  | none => d

/-- The variables read from `process.env`. -/
structure Env where
  nodeEnv : Option String
  npmPackageVersion : Option String
  hostname : Option String
deriving DecidableEq

/-- An error value travelling through `next(err)`: `status` is the property set
by the body parsers (413, 400), `message` is `error.message`. -/
structure JsError where
  status : Option Nat
  message : Option String
deriving DecidableEq

/-- The media type of a request body as far as the body parsers tell them
apart. -/
inductive ContentKind
  | json
  | urlencoded
  | other
deriving DecidableEq

/-- A request body: its media type, its length in bytes and whether the
parser of its media type can parse it. -/
structure Body where
  kind : ContentKind
  length : Nat
  wellFormed : Bool
deriving DecidableEq

/-- An inbound request. `ip` is the client identity used by the rate limiter,
`handlerThrows` is the exception, if any, that the body of the matched route
handler raises as its first statement. -/
structure Request where
  method : String
  path : List String
  ip : String
  body : Option Body
  handlerThrows : Option String
deriving DecidableEq

/-- The text of a path given by its segments, as `req.path` returns it. -/
def pathString (segs : List String) : String :=
  "/" ++ "/".intercalate segs

/-! ## The rate limiter -/

/-- The per-client record of the rate limiter. -/
structure RateLimitWindow where
  start : Nat
  count : Nat
deriving DecidableEq

/-- The rate limiter's store, keyed by client identity. -/
abbrev LimiterStore := String → Option RateLimitWindow

/-- The option `windowMs: 15 * 60 * 1000` of the limiter. -/
def windowMs : Nat := 15 * 60 * 1000

/-- The option `max: 100` of the limiter. -/
def maxRequests : Nat := 100

/-- Modelled from the spec: the admission algorithm of the rate limiter, which
lives in the `express-rate-limit` package and not in this repository. A fixed
window per client: a request arriving once the window has expired (or from an
unknown client) opens a new window at the current time with the count reset,
and then counts as its first request; a request is admitted while the count,
this request included, does not exceed the cap. -/
def admission (window cap : Nat) (store : LimiterStore) (client : String) (now : Nat) :
    LimiterStore × Bool :=
  let w : RateLimitWindow :=
    match store client with
    | some w => if now < w.start + window then ⟨w.start, w.count + 1⟩ else ⟨now, 1⟩
    | none => ⟨now, 1⟩
  (fun k => if k = client then some w else store k, decide (w.count ≤ cap))

/-! ## The metrics registry -/

/-- One `httpRequestsTotal.inc({method, status_code, route})`. -/
structure CounterSample where
  method : String
  statusCode : Nat
  route : String
deriving DecidableEq

/-- One `httpRequestDuration.observe({method, route}, duration)`; the duration
is kept in milliseconds, the source divides it by 1000. -/
structure DurationSample where
  method : String
  route : String
  durationMs : Int
deriving DecidableEq

/-- One `businessMetrics.inc({operation, status})`. -/
structure BusinessSample where
  operation : String
  status : String
deriving DecidableEq

/-- The four custom metrics. A counter or histogram is held as the sequence of
the updates applied to it, a gauge as its current value. -/
structure Registry where
  httpRequestsTotal : List CounterSample
  httpRequestDuration : List DurationSample
  businessMetrics : List BusinessSample
  mongoConnections : Int
deriving DecidableEq

/-- The value of `http_requests_total` for one label set. -/
def Registry.requestCount (r : Registry) (l : CounterSample) : Nat :=
  r.httpRequestsTotal.count l

/-! ## The backing-store connection -/

/-- The states of the connection to the store. -/
inductive ConnectionState
  | connecting
  | connected
  | disconnected
  | errored
deriving DecidableEq

/-- Modelled from the spec: `mongoose.connection.readyState`, which lives in
the `mongoose` package: 1 when connected, 2 while connecting, 0 otherwise. -/
def readyState : ConnectionState → Nat
  | .connected => 1
  | .connecting => 2
  | .disconnected => 0
  | .errored => 0

/-- The field `mongo` of the health body:
`mongoose.connection.readyState === 1 ? 'connected' : 'disconnected'`. -/
def mongoStatus (conn : ConnectionState) : String :=
  if readyState conn = 1 then "connected" else "disconnected"

/-- What `mongoose.connection.db.serverConfig.s.serverDetails.connections`
yields when `GET /metrics` reads it. -/
inductive ServerConfigProbe
  | absent
  | connections (n : Int)
  | throws (message : String)
deriving DecidableEq

/-- The process-wide state that requests and connection events act on.
`connectSettled` tells whether the promise of `mongoose.connect` has settled,
`listening` whether the `error` and `disconnected` listeners are registered. -/
structure World where
  env : Env
  limiter : LimiterStore
  registry : Registry
  conn : ConnectionState
  connectSettled : Bool
  listening : Bool
  serverConfig : ServerConfigProbe

/-- The registry before any update and the connection before it settles. -/
def World.init (env : Env) : World :=
  { env := env
    limiter := fun _ => none
    registry := ⟨[], [], [], 0⟩
    conn := .connecting
    connectSettled := false
    listening := false
    serverConfig := .absent }

/-! ## The request pipeline -/

/-- The layers registered on `app`, one constructor per `app.use` / `app.get`
call of the source. -/
inductive Stage
  | helmet
  | cors
  | limiter
  | metrics
  | json
  | urlencoded
  | getHealth
  | getApi
  | getApiData
  | getMetrics
  | errorHandler
  | notFound
deriving DecidableEq

/-- The layer stack in the order in which the source registers it. -/
def appStack : List Stage :=
  [.helmet, .cors, .limiter, .metrics, .json, .urlencoded,
   .getHealth, .getApi, .getApiData, .getMetrics, .errorHandler, .notFound]

/-- The route pattern of a layer created by `app.get`, none for a layer created
by `app.use`. -/
def Stage.routePath : Stage → Option String
  | .getHealth => some "/health"
  | .getApi => some "/api"
  | .getApiData => some "/api/data"
  | .getMetrics => some "/metrics"
  | _ => none

/-- The patterns of the registered routes. -/
def registeredRoutes : List String :=
  appStack.filterMap Stage.routePath

/-- The body sent with a response. The health body leaves out the runtime
readings `uptime`, `memory` and `cpu`. -/
inductive ResBody
  | empty
  | health (message : String) (timestamp : Nat) (environment version mongo : String)
  | api (message environment : String)
  | data (message server : String)
  | metricsText
  | errorOnly (error : Option String)
  | internalError (error : String) (message : Option String)
  | routeNotFound (error : String)
  | tooManyRequests
deriving DecidableEq

/-- The state of one request and its response while it travels through the
stack: `route` is `req.route.path`, `url` the path of `req.url` (relative to
the mount point of the layer that runs), `finishListeners` the `start` value
captured by each listener registered on the `finish` event, `trace` the layers
whose handler ran. -/
structure Ctx where
  req : Request
  route : Option String
  url : List String
  statusCode : Nat
  body : ResBody
  securityHeaders : Bool
  corsHeaders : Bool
  bodyParsed : Bool
  finishListeners : List Nat
  trace : List Stage
deriving DecidableEq

/-- The request as the first layer receives it. -/
def Ctx.init (req : Request) : Ctx :=
  { req := req
    route := none
    url := req.path
    statusCode := 200
    body := .empty
    securityHeaders := false
    corsHeaders := false
    bodyParsed := false
    finishListeners := []
    trace := [] }

/-- What a layer does with the control flow: call `next()`, call `next(err)`,
or end the response. -/
inductive Signal
  | next
  | nextErr (e : JsError)
  | ended
deriving DecidableEq

/-- Whether `app.get` serves the method: `GET`, and `HEAD` for lack of a
`HEAD` route. -/
def isGet (method : String) : Bool :=
  method = "GET" || method = "HEAD"

/-- Whether the router hands the request to the layer: a layer mounted with
`app.use` matches the paths below its mount point (`/api/` for the limiter,
every path for the others), a route matches its method and its whole path. -/
def layerMatches (s : Stage) (req : Request) : Bool :=
  match s with
  | .limiter => req.path.head? = some "api"
  | .getHealth => isGet req.method && req.path = ["health"]
  | .getApi => isGet req.method && req.path = ["api"]
  | .getApiData => isGet req.method && req.path = ["api", "data"]
  | .getMetrics => isGet req.method && req.path = ["metrics"]
  | _ => true

/-- The path of `req.url` while the layer runs: the router removes the part
matched by the mount point of an `app.use` layer (`/api` for the limiter, the
whole path for `*`). -/
def mountedUrl (s : Stage) (path : List String) : List String :=
  match s with
  | .limiter => path.drop 1
  | .notFound => []
  | _ => path

/-- The option `limit: '10mb'` of both body parsers, in bytes. -/
def bodyLimit : Nat := 10 * 1024 * 1024

/-- The layers `express.json` and `express.urlencoded`: a request without a
body, with a body already parsed or of another media type is passed on; a body
longer than the limit is refused with a 413 error before it is parsed; a body
that does not parse is refused with a 400 error. -/
def bodyParser (kind : ContentKind) (limit : Nat) (c : Ctx) : Signal × Ctx :=
  match c.req.body with
  | none => (.next, c)
  | some b =>
    if c.bodyParsed then (.next, c)
    else if b.kind ≠ kind then (.next, c)
    else if b.length > limit then
      (.nextErr ⟨some 413, some "request entity too large"⟩, c)
    else if b.wellFormed then (.next, { c with bodyParsed := true })
    else (.nextErr ⟨some 400, some "body parse failed"⟩, c)

/-- The handler of every layer but the error handler, run at time `now`. -/
def runStage (s : Stage) (now : Nat) (c : Ctx) (w : World) : Signal × Ctx × World :=
  match s with
  | .helmet => (.next, { c with securityHeaders := true }, w)
  | .cors =>
    if c.req.method = "OPTIONS" then
      (.ended, { c with corsHeaders := true, statusCode := 204 }, w)
    else (.next, { c with corsHeaders := true }, w)
  | .limiter =>
    let r := admission windowMs maxRequests w.limiter c.req.ip now
    if r.2 then (.next, c, { w with limiter := r.1 })
    else (.ended, { c with statusCode := 429, body := .tooManyRequests },
          { w with limiter := r.1 })
  | .metrics => (.next, { c with finishListeners := c.finishListeners ++ [now] }, w)
  | .json => let r := bodyParser .json bodyLimit c; (r.1, r.2, w)
  | .urlencoded => let r := bodyParser .urlencoded bodyLimit c; (r.1, r.2, w)
  | .getHealth =>
    match c.req.handlerThrows with
    | some m => (.nextErr ⟨none, some m⟩, c, w)
    | none =>
      (.ended,
       { c with
         statusCode := 200
         body := .health "OK" now (jsOr w.env.nodeEnv "development")
           (jsOr w.env.npmPackageVersion "1.0.0")
           (mongoStatus w.conn) }, w)
  | .getApi =>
    match c.req.handlerThrows with
    | some m => (.nextErr ⟨none, some m⟩, c, w)
    | none =>
      (.ended,
       { c with body := .api "MERN API is working" (jsOr w.env.nodeEnv "development") }, w)
  | .getApiData =>
    match c.req.handlerThrows with
    | some m =>
      (.ended, { c with statusCode := 500, body := .errorOnly (some m) },
       { w with registry :=
          { w.registry with
            businessMetrics := w.registry.businessMetrics ++ [⟨"data_fetch", "error"⟩] } })
    | none =>
      (.ended, { c with body := .data "Sample data" (jsOr w.env.hostname "unknown") },
       { w with registry :=
          { w.registry with
            businessMetrics := w.registry.businessMetrics ++ [⟨"data_fetch", "success"⟩] } })
  | .getMetrics =>
    match c.req.handlerThrows with
    | some m => (.ended, { c with statusCode := 500, body := .errorOnly (some m) }, w)
    | none =>
      match w.serverConfig with
      | .absent => (.ended, { c with body := .metricsText }, w)
      | .connections n =>
        (.ended, { c with body := .metricsText },
         { w with registry := { w.registry with mongoConnections := n } })
      | .throws m => (.ended, { c with statusCode := 500, body := .errorOnly (some m) }, w)
  | .errorHandler => (.next, c, w)
  | .notFound =>
    (.ended, { c with statusCode := 404, body := .routeNotFound "Route not found" }, w)

/-- The error-handling middleware `(error, req, res, next)`: the body of its
response for the environment name and the error. -/
def errorBody (nodeEnv : Option String) (error : JsError) : ResBody :=
  .internalError "Internal server error"
    (if nodeEnv = some "development" then error.message else some "Something went wrong")

/-- The error-handling middleware: counts a failed business operation and
answers 500. -/
def errorHandler (error : JsError) (c : Ctx) (w : World) : Ctx × World :=
  ({ c with statusCode := 500, body := errorBody w.env.nodeEnv error },
   { w with registry :=
      { w.registry with
        businessMetrics := w.registry.businessMetrics ++ [⟨"error_handling", "error"⟩] } })

/-- What Express does when the stack is exhausted: 404 without an error, the
status of the error (500 by default) with one. -/
def finalHandler (err : Option JsError) (c : Ctx) : Ctx :=
  match err with
  | none => { c with statusCode := 404 }
  | some e => { c with statusCode := e.status.getD 500 }

/-- The router hands the request to a layer: the layer is recorded, `req.url`
is made relative to its mount point, and a route is stored in `req.route`. -/
def enterLayer (s : Stage) (c : Ctx) : Ctx :=
  { c with
    trace := c.trace ++ [s]
    url := mountedUrl s c.req.path
    route := if (Stage.routePath s).isSome then Stage.routePath s else c.route }

/-- A layer called `next`: the router restores `req.url`. -/
def leaveLayer (c : Ctx) : Ctx :=
  { c with url := c.req.path }

/-- The `next()` loop of the router over the rest of the stack. With a pending
error only the error-handling layer runs, without one it is skipped; a layer
that does not match the request is skipped. -/
def dispatch (now : Nat) : List Stage → Option JsError → Ctx → World → Ctx × World
  | [], err, c, w => (finalHandler err c, w)
  | s :: rest, err, c, w =>
    if layerMatches s c.req then
      match err with
      | some e =>
        if s = .errorHandler then
          errorHandler e { c with trace := c.trace ++ [s] } w
        else dispatch now rest err c w
      | none =>
        if s = .errorHandler then dispatch now rest none c w
        else
          match runStage s now (enterLayer s c) w with
          | (.next, c2, w2) => dispatch now rest none (leaveLayer c2) w2
          | (.nextErr e, c2, w2) => dispatch now rest (some e) (leaveLayer c2) w2
          | (.ended, c2, w2) => (c2, w2)
    else dispatch now rest err c w

/-- The label `req.route ? req.route.path : req.path` of the `finish`
callback. -/
def routeLabel (c : Ctx) : String :=
  match c.route with
  | some p => p
  | none => pathString c.url

/-- The callback registered on `finish` by the metrics middleware, for the
`start` it captured, run at time `finishedAt`. -/
def finishHook (start finishedAt : Nat) (c : Ctx) (r : Registry) : Registry :=
  { r with
    httpRequestsTotal := r.httpRequestsTotal ++ [⟨c.req.method, c.statusCode, routeLabel c⟩]
    httpRequestDuration :=
      r.httpRequestDuration ++ [⟨c.req.method, routeLabel c, (finishedAt : Int) - (start : Int)⟩] }

/-- The `finish` event of the response: every registered listener runs once. -/
def emitFinish (finishedAt : Nat) (c : Ctx) (r : Registry) : Registry :=
  c.finishListeners.foldl (fun acc start => finishHook start finishedAt c acc) r

/-- A request arriving at time `now` whose response finishes at time
`finishedAt`: the stack is walked, then the `finish` event is emitted. -/
def handle (w : World) (req : Request) (now finishedAt : Nat) : Ctx × World :=
  let r := dispatch now appStack none (Ctx.init req) w
  (r.1, { r.2 with registry := emitFinish finishedAt r.1 r.2.registry })

/-- The layers behind the metrics middleware. -/
def bodyStack : List Stage :=
  [.json, .urlencoded, .getHealth, .getApi, .getApiData, .getMetrics, .errorHandler, .notFound]

/-- The layers behind the body parsers. -/
def routeStack : List Stage :=
  [.getHealth, .getApi, .getApiData, .getMetrics, .errorHandler, .notFound]

/-! ## The connection callbacks -/

/-- The events of the connection to the store. -/
inductive MongoEvent
  | connectSucceeded
  | connectFailed
  | error
  | disconnected
  | reconnectAttempt
  | reconnected
deriving DecidableEq

/-- Modelled from the spec: the transitions of the connection, which the
`mongoose` driver performs: `Connecting → Connected`,
`Connected → Disconnected`, `Connected → Errored`,
`Disconnected, Errored → Connecting`; a failed connection attempt leaves the
connection disconnected, and an event that has no transition from the current
state leaves the state as it is. -/
def nextConnectionState : ConnectionState → MongoEvent → ConnectionState
  | .connecting, .connectSucceeded => .connected
  | .connecting, .reconnected => .connected
  | .connecting, .connectFailed => .disconnected
  | .connected, .error => .errored
  | .connected, .disconnected => .disconnected
  | .disconnected, .reconnectAttempt => .connecting
  | .errored, .reconnectAttempt => .connecting
  | s, _ => s

/-- The callbacks attached to `mongoose.connect(...)`: `.then` sets the gauge
to 1 and registers the `error` and `disconnected` listeners, which set it to 0,
`.catch` sets it to 0. No callback is attached to any other event. -/
def mongoStep (w : World) (e : MongoEvent) : World :=
  let w1 : World := { w with conn := nextConnectionState w.conn e }
  match e with
  | .connectSucceeded =>
    if w.connectSettled then w1
    else
      { w1 with
        registry := { w1.registry with mongoConnections := 1 }
        connectSettled := true
        listening := true }
  | .connectFailed =>
    if w.connectSettled then w1
    else
      { w1 with
        registry := { w1.registry with mongoConnections := 0 }
        connectSettled := true }
  | .error =>
    if w.listening then { w1 with registry := { w1.registry with mongoConnections := 0 } }
    else w1
  | .disconnected =>
    if w.listening then { w1 with registry := { w1.registry with mongoConnections := 0 } }
    else w1
  | .reconnectAttempt => w1
  | .reconnected => w1

/-- The state after a sequence of connection events. -/
def mongoRun (w : World) (events : List MongoEvent) : World :=
  events.foldl mongoStep w

/-! ## The shutdown handler -/

/-- What happens to the process during shutdown: a `SIGINT` is delivered, or
the oldest pending `mongoose.connection.close()` settles (`ok` when it
resolves, not `ok` when it rejects). -/
inductive ShutdownEvent
  | sigint
  | closeSettled (ok : Bool)
deriving DecidableEq

/-- The process as the shutdown handler sees it: the number of calls of
`mongoose.connection.close()`, the number of handler runs waiting at `await`,
the exit code once `process.exit` was called, and the console lines. -/
structure Process where
  closeCalls : Nat
  pendingCloses : Nat
  exitCode : Option Nat
  log : List String
deriving DecidableEq

/-- A running process that received no signal. -/
def Process.init : Process :=
  { closeCalls := 0, pendingCloses := 0, exitCode := none, log := [] }

/-- The listener `process.on('SIGINT', async () => ...)`: on a signal it logs,
calls `close()` and waits; when the call settles it exits with 0 if it
resolved and with 1 if it rejected. Nothing runs once the process exited. -/
def shutdownStep (p : Process) : ShutdownEvent → Process
  | .sigint =>
    if p.exitCode.isSome then p
    else
      { p with
        log := p.log ++ ["Received SIGINT, shutting down gracefully"]
        closeCalls := p.closeCalls + 1
        pendingCloses := p.pendingCloses + 1 }
  | .closeSettled ok =>
    if p.exitCode.isSome || p.pendingCloses = 0 then p
    else if ok then
      { p with
        pendingCloses := p.pendingCloses - 1
        log := p.log ++ ["MongoDB connection closed"]
        exitCode := some 0 }
    else
      { p with
        pendingCloses := p.pendingCloses - 1
        log := p.log ++ ["Error during shutdown:"]
        exitCode := some 1 }

/-- The process after a sequence of shutdown events. -/
def shutdownRun (p : Process) (events : List ShutdownEvent) : Process :=
  events.foldl shutdownStep p

/-! ## Definitions used in the statements -/

/-- The verdicts of the limiter on the successive requests of one client at
the given times, and the store they leave. -/
def admissions (store : LimiterStore) (client : String) : List Nat → LimiterStore × List Bool
  | [] => (store, [])
  | t :: ts =>
    let r := admission windowMs maxRequests store client t
    let rs := admissions r.1 client ts
    (rs.1, r.2 :: rs.2)

/-- The order of the stages as the specification lists it, with body decoding
in front of the metrics middleware. -/
def specOrder : List Stage :=
  [.helmet, .cors, .limiter, .json, .urlencoded, .metrics,
   .getHealth, .getApi, .getApiData, .getMetrics, .errorHandler, .notFound]

/-- A process whose environment variables are unset and that served no
request. -/
def freshWorld : World := World.init ⟨none, none, none⟩

/-- The state of `freshWorld` after the client 10.0.0.1 used up its hundred
requests in the window opened at time 0. -/
def saturatedWorld : World :=
  { freshWorld with limiter := fun k => if k = "10.0.0.1" then some ⟨0, 100⟩ else none }

/-- The request `GET /health`. -/
def healthRequest : Request := ⟨"GET", ["health"], "10.0.0.1", none, none⟩

/-- The request `GET /api/data`. -/
def apiDataRequest : Request := ⟨"GET", ["api", "data"], "10.0.0.1", none, none⟩

/-- The `OPTIONS /api/data` of the client 10.0.0.1. -/
def preflightRequest : Request := ⟨"OPTIONS", ["api", "data"], "10.0.0.1", none, none⟩

/-- A `POST /upload` with a JSON body one byte over the limit. -/
def oversizedUpload : Request :=
  ⟨"POST", ["upload"], "10.0.0.1", some ⟨.json, 10485761, true⟩, none⟩

/-- A `POST /upload` with a JSON body of exactly the limit. -/
def fullUpload : Request :=
  ⟨"POST", ["upload"], "10.0.0.1", some ⟨.json, 10485760, true⟩, none⟩

/-- A `POST /x/12345` with a JSON body that does not parse. -/
def malformedPost : Request :=
  ⟨"POST", ["x", "12345"], "10.0.0.1", some ⟨.json, 1, false⟩, none⟩

/-- What the handler of one layer leaves unchanged, and what it changes. -/
structure StageFacts (s : Stage) (now : Nat) (c : Ctx) (w : World)
    (r : Signal × Ctx × World) : Prop where
  req_eq : r.2.1.req = c.req
  trace_eq : r.2.1.trace = c.trace
  route_eq : r.2.1.route = c.route
  url_eq : r.2.1.url = c.url
  listeners : r.2.1.finishListeners
    = c.finishListeners ++ List.replicate ([s].count Stage.metrics) now
  counter : r.2.2.registry.httpRequestsTotal = w.registry.httpRequestsTotal
  histogram : r.2.2.registry.httpRequestDuration = w.registry.httpRequestDuration
  env_eq : r.2.2.env = w.env
  limiter_eq : s ≠ Stage.limiter → r.2.2.limiter = w.limiter
  parsed : c.bodyParsed = true → r.2.1.bodyParsed = true
  route_sig : (Stage.routePath s).isSome = true → r.1 ≠ Signal.next
  fallback : s = Stage.notFound → r.1 = Signal.ended ∧ r.2.1.statusCode = 404

/-- What a run of the router loop over `stack` does: `t` lists the layers that
ran, in order. -/
structure DispatchFacts (now : Nat) (stack : List Stage) (err : Option JsError)
    (c : Ctx) (w : World) (r : Ctx × World) (t : List Stage) : Prop where
  sub : t.Sublist stack
  trace_eq : r.1.trace = c.trace ++ t
  req_eq : r.1.req = c.req
  listeners : r.1.finishListeners
    = c.finishListeners ++ List.replicate (t.count Stage.metrics) now
  counter : r.2.registry.httpRequestsTotal = w.registry.httpRequestsTotal
  histogram : r.2.registry.httpRequestDuration = w.registry.httpRequestDuration
  env_eq : r.2.env = w.env
  limiter_eq : Stage.limiter ∉ t → r.2.limiter = w.limiter
  pending : err.isSome = true → ∀ s ∈ t, s = Stage.errorHandler
  handled : Stage.errorHandler ∈ t →
    r.1.statusCode = 500 ∧ ∃ e, r.1.body = errorBody w.env.nodeEnv e
  route_keep : (∀ s ∈ t, Stage.routePath s = none) → r.1.route = c.route
  route_reg : ((∃ p ∈ registeredRoutes, c.route = some p) ∨
      ∃ s ∈ t, (Stage.routePath s).isSome = true) →
    ∃ p ∈ registeredRoutes, r.1.route = some p
  fallback : c.route = none → Stage.notFound ∈ t →
    r.1.route = none ∧ r.1.url = [] ∧ r.1.statusCode = 404
  url_raw : c.url = c.req.path → Stage.notFound ∉ t →
    r.1.url = c.req.path ∨ ∃ t', t = t' ++ [Stage.limiter]
  parsed : c.bodyParsed = true → r.1.bodyParsed = true

/-! ## Facts about the router loop -/

/-- Induction over the router loop: a property that holds when the stack is
exhausted, is kept when a layer is skipped, holds when the error handler
answers or a layer ends the response, and is kept when a layer hands over to
the rest of the stack, holds of every run. -/
theorem dispatch_ind (now : Nat)
    (P : List Stage → Option JsError → Ctx → World → Ctx × World → Prop)
    (hnil : ∀ err c w, P [] err c w (finalHandler err c, w))
    (hskip : ∀ s rest err c w r, (layerMatches s c.req = false ∨ (err.isSome ∧ s ≠ .errorHandler)
        ∨ (err = none ∧ s = .errorHandler)) →
        P rest err c w r → P (s :: rest) err c w r)
    (herr : ∀ rest e c w, P (.errorHandler :: rest) (some e) c w
        (errorHandler e { c with trace := c.trace ++ [.errorHandler] } w))
    (hend : ∀ s rest c w c2 w2, layerMatches s c.req = true → s ≠ .errorHandler →
        runStage s now (enterLayer s c) w = (.ended, c2, w2) → P (s :: rest) none c w (c2, w2))
    (hnext : ∀ s rest c w c2 w2 r, layerMatches s c.req = true → s ≠ .errorHandler →
        runStage s now (enterLayer s c) w = (.next, c2, w2) →
        P rest none (leaveLayer c2) w2 r → P (s :: rest) none c w r)
    (hnextErr : ∀ s rest c w e c2 w2 r, layerMatches s c.req = true → s ≠ .errorHandler →
        runStage s now (enterLayer s c) w = (.nextErr e, c2, w2) →
        P rest (some e) (leaveLayer c2) w2 r → P (s :: rest) none c w r) :
    ∀ stack err c w, P stack err c w (dispatch now stack err c w) := by
  intro stack
  induction stack with
  | nil => intro err c w; exact hnil err c w
  | cons s rest ih =>
    intro err c w
    by_cases hm : layerMatches s c.req = true
    · cases err with
      | some e =>
        by_cases hs : s = .errorHandler
        · subst hs
          have : dispatch now (.errorHandler :: rest) (some e) c w
              = errorHandler e { c with trace := c.trace ++ [.errorHandler] } w := by
            simp [dispatch, hm]
          rw [this]; exact herr rest e c w
        · have : dispatch now (s :: rest) (some e) c w = dispatch now rest (some e) c w := by
            simp [dispatch, hm, hs]
          rw [this]
          exact hskip s rest (some e) c w _ (Or.inr (Or.inl ⟨rfl, hs⟩)) (ih _ c w)
      | none =>
        by_cases hs : s = .errorHandler
        · have : dispatch now (s :: rest) none c w = dispatch now rest none c w := by
            simp [dispatch, hm, hs]
          rw [this]
          exact hskip s rest none c w _ (Or.inr (Or.inr ⟨rfl, hs⟩)) (ih _ c w)
        · rcases hrun : runStage s now (enterLayer s c) w with ⟨sig, c2, w2⟩
          cases sig with
          | next =>
            have : dispatch now (s :: rest) none c w = dispatch now rest none (leaveLayer c2) w2 := by
              simp [dispatch, hm, hs, hrun]
            rw [this]
            exact hnext s rest c w c2 w2 _ hm hs hrun (ih _ _ _)
          | nextErr e =>
            have : dispatch now (s :: rest) none c w = dispatch now rest (some e) (leaveLayer c2) w2 := by
              simp [dispatch, hm, hs, hrun]
            rw [this]
            exact hnextErr s rest c w e c2 w2 _ hm hs hrun (ih _ _ _)
          | ended =>
            have : dispatch now (s :: rest) none c w = (c2, w2) := by
              simp [dispatch, hm, hs, hrun]
            rw [this]
            exact hend s rest c w c2 w2 hm hs hrun
    · have hm' : layerMatches s c.req = false := by simpa using hm
      have : dispatch now (s :: rest) err c w = dispatch now rest err c w := by
        simp [dispatch, hm']
      rw [this]
      exact hskip s rest err c w _ (Or.inl hm') (ih _ c w)

/-- A body parser changes nothing of the request state but `bodyParsed`. -/
theorem bodyParser_ctx (kind : ContentKind) (limit : Nat) (c : Ctx) :
    (bodyParser kind limit c).2 = c ∨
    (bodyParser kind limit c).2 = { c with bodyParsed := true } := by
  unfold bodyParser
  split
  · exact Or.inl rfl
  · split_ifs <;> simp

/-- Every layer satisfies `StageFacts`. -/
theorem runStage_facts (s : Stage) (now : Nat) (c : Ctx) (w : World) :
    StageFacts s now c w (runStage s now c w) := by
  cases s
  case json =>
    rcases bodyParser_ctx .json bodyLimit c with h | h <;>
      constructor <;> simp [runStage, h, Stage.routePath]
  case urlencoded =>
    rcases bodyParser_ctx .urlencoded bodyLimit c with h | h <;>
      constructor <;> simp [runStage, h, Stage.routePath]
  all_goals
    constructor <;> simp only [runStage] <;> (try split) <;> (try split) <;>
      simp_all [Stage.routePath]

/-- The pattern of a route layer is a registered route. -/
theorem routePath_mem (s : Stage) (h : (Stage.routePath s).isSome = true) :
    ∃ p ∈ registeredRoutes, Stage.routePath s = some p := by
  cases s <;> simp [Stage.routePath, registeredRoutes, appStack] at h ⊢

/-- `DispatchFacts` is kept when a layer hands over to the rest of the stack. -/
theorem dispatch_facts_step (now : Nat) (s : Stage) (rest : List Stage) (c : Ctx) (w : World)
    (sig : Signal) (c2 : Ctx) (w2 : World) (r : Ctx × World) (t : List Stage)
    (err : Option JsError) (hs : s ≠ Stage.errorHandler)
    (f : StageFacts s now (enterLayer s c) w (sig, c2, w2))
    (hsig : sig ≠ Signal.ended) (hpend : sig ≠ Signal.next → err.isSome = true)
    (h : DispatchFacts now rest err (leaveLayer c2) w2 r t) :
    DispatchFacts now (s :: rest) none c w r (s :: t) := by
  have hnf : s ≠ Stage.notFound := fun h' => hsig (f.fallback h').1
  have hroute : (leaveLayer c2).route
      = if (Stage.routePath s).isSome then Stage.routePath s else c.route := by
    simpa [enterLayer, leaveLayer] using f.route_eq
  have hreq : (leaveLayer c2).req = c.req := by
    simpa [enterLayer, leaveLayer] using f.req_eq
  constructor
  case sub => exact h.sub.cons₂ s
  case trace_eq =>
    have := f.trace_eq
    simp only [enterLayer] at this
    rw [h.trace_eq]; simp [leaveLayer, this]
  case req_eq => rw [h.req_eq, hreq]
  case listeners =>
    have := f.listeners
    simp only [enterLayer] at this
    rw [h.listeners]
    simp only [leaveLayer, this, List.append_assoc, ← List.replicate_add]
    congr 2
    simp [List.count_cons, Nat.add_comm]
  case counter => exact h.counter.trans f.counter
  case histogram => exact h.histogram.trans f.histogram
  case env_eq => exact h.env_eq.trans f.env_eq
  case limiter_eq =>
    intro hl
    simp only [List.mem_cons, not_or] at hl
    exact (h.limiter_eq hl.2).trans (f.limiter_eq (Ne.symm hl.1))
  case pending => intro h'; simp at h'
  case handled =>
    intro he
    simp only [List.mem_cons] at he
    rcases he with he | he
    · exact absurd he.symm hs
    · have := h.handled he
      rwa [show w2.env = w.env from f.env_eq] at this
  case route_keep =>
    intro hk
    have h1 : Stage.routePath s = none := hk s (by simp)
    rw [h.route_keep (fun s' hs' => hk s' (by simp [hs'])), hroute]
    simp [h1]
  case route_reg =>
    intro hr
    apply h.route_reg
    by_cases hsome : (Stage.routePath s).isSome = true
    · left
      obtain ⟨p, hp, hq⟩ := routePath_mem s hsome
      exact ⟨p, hp, by rw [hroute]; simp [hsome, hq]⟩
    · rcases hr with ⟨p, hp, hq⟩ | ⟨s', hs', hq⟩
      · left; exact ⟨p, hp, by rw [hroute]; simp [hsome, hq]⟩
      · simp only [List.mem_cons] at hs'
        rcases hs' with rfl | hs'
        · exact absurd hq hsome
        · right; exact ⟨s', hs', hq⟩
  case fallback =>
    intro hc hmem
    simp only [List.mem_cons] at hmem
    rcases hmem with hmem | hmem
    · exact absurd hmem.symm hnf
    · by_cases hn : sig = Signal.next
      · apply h.fallback _ hmem
        rw [hroute]
        have : ¬ (Stage.routePath s).isSome = true := fun h' => f.route_sig h' hn
        simp [this, hc]
      · have := h.pending (hpend hn) _ hmem
        simp at this
  case url_raw =>
    intro _ hmem
    simp only [List.mem_cons, not_or] at hmem
    rcases h.url_raw rfl hmem.2 with h' | ⟨t', h'⟩
    · left; rw [h', hreq]
    · right; exact ⟨s :: t', by simp [h']⟩
  case parsed =>
    intro hp
    exact h.parsed (by simpa [leaveLayer] using f.parsed (by simpa [enterLayer] using hp))

/-- Every run of the router loop satisfies `DispatchFacts`. -/
theorem dispatch_facts (now : Nat) : ∀ stack err c w,
    ∃ t, DispatchFacts now stack err c w (dispatch now stack err c w) t := by
  apply dispatch_ind now (fun stack err c w r => ∃ t, DispatchFacts now stack err c w r t)
  · -- the stack is exhausted
    intro err c w
    refine ⟨[], ?_⟩
    constructor <;> cases err <;> simp [finalHandler]
  · -- a layer is skipped
    rintro s rest err c w r - ⟨t, h⟩
    exact ⟨t, { h with sub := h.sub.cons s }⟩
  · -- the error handler answers
    intro rest e c w
    refine ⟨[.errorHandler], ?_⟩
    constructor
    case handled => intro _; exact ⟨rfl, e, rfl⟩
    case route_reg =>
      rintro (h | ⟨s, hs, h⟩)
      · exact h
      · simp at hs; subst hs; simp [Stage.routePath] at h
    case url_raw => intro h _; exact Or.inl h
    all_goals simp [errorHandler, Stage.routePath]
  · -- a layer ends the response
    intro s rest c w c2 w2 hm hs hrun
    have f := runStage_facts s now (enterLayer s c) w
    rw [hrun] at f
    refine ⟨[s], ?_⟩
    constructor
    case sub => simp
    case trace_eq => simpa [enterLayer] using f.trace_eq
    case req_eq => simpa [enterLayer] using f.req_eq
    case listeners => simpa [enterLayer] using f.listeners
    case counter => exact f.counter
    case histogram => exact f.histogram
    case env_eq => exact f.env_eq
    case limiter_eq => intro h; exact f.limiter_eq (by simpa [eq_comm] using h)
    case pending => intro h; simp at h
    case handled => intro h; simp at h; exact absurd h.symm hs
    case route_keep =>
      intro h
      have h1 : Stage.routePath s = none := h s (by simp)
      simpa [enterLayer, h1] using f.route_eq
    case route_reg =>
      rintro (h | ⟨s', hs', h⟩)
      · by_cases hr : (Stage.routePath s).isSome = true
        · obtain ⟨p, hp, hq⟩ := routePath_mem s hr
          exact ⟨p, hp, by simpa [enterLayer, hr, hq] using f.route_eq⟩
        · obtain ⟨p, hp, hq⟩ := h
          exact ⟨p, hp, by simpa [enterLayer, hr, hq] using f.route_eq⟩
      · simp at hs'; subst hs'
        obtain ⟨p, hp, hq⟩ := routePath_mem s' h
        exact ⟨p, hp, by simpa [enterLayer, h, hq] using f.route_eq⟩
    case fallback =>
      intro hc h
      simp at h; subst h
      refine ⟨?_, ?_, (f.fallback rfl).2⟩
      · simpa [enterLayer, Stage.routePath, hc] using f.route_eq
      · simpa [enterLayer, mountedUrl] using f.url_eq
    case url_raw =>
      intro _ h
      by_cases hl : s = .limiter
      · exact Or.inr ⟨[], by simp [hl]⟩
      · left
        have hn : s ≠ .notFound := by intro h'; apply h; simp [h']
        have : mountedUrl s c.req.path = c.req.path := by
          cases s <;> simp_all [mountedUrl]
        simpa [enterLayer, this] using f.url_eq
    case parsed => intro h; exact f.parsed (by simpa [enterLayer] using h)
  · -- a layer calls next()
    rintro s rest c w c2 w2 r - hs hrun ⟨t, h⟩
    have f := runStage_facts s now (enterLayer s c) w
    rw [hrun] at f
    exact ⟨s :: t, dispatch_facts_step now s rest c w _ c2 w2 r t none hs f (by simp)
      (by simp) h⟩
  · -- a layer calls next(err)
    rintro s rest c w e c2 w2 r - hs hrun ⟨t, h⟩
    have f := runStage_facts s now (enterLayer s c) w
    rw [hrun] at f
    exact ⟨s :: t, dispatch_facts_step now s rest c w _ c2 w2 r t (some e) hs f (by simp)
      (by simp) h⟩

/-- A preflight request is answered by `cors`. -/
theorem dispatch_options (now : Nat) (w : World) (req : Request) (h : req.method = "OPTIONS") :
    dispatch now appStack none (Ctx.init req) w
      = ({ Ctx.init req with
            securityHeaders := true, corsHeaders := true, statusCode := 204,
            trace := [.helmet, .cors] }, w) := by
  simp [appStack, dispatch, layerMatches, enterLayer, leaveLayer, runStage, Ctx.init,
    mountedUrl, Stage.routePath, h]

/-- A request below `/api` that the limiter refuses is answered by the limiter. -/
theorem dispatch_rejected (now : Nat) (w : World) (req : Request) (h : req.method ≠ "OPTIONS")
    (hp : req.path.head? = some "api")
    (ha : (admission windowMs maxRequests w.limiter req.ip now).2 = false) :
    dispatch now appStack none (Ctx.init req) w
      = ({ Ctx.init req with
            securityHeaders := true, corsHeaders := true, statusCode := 429,
            body := .tooManyRequests, url := req.path.drop 1,
            trace := [.helmet, .cors, .limiter] },
          { w with limiter := (admission windowMs maxRequests w.limiter req.ip now).1 }) := by
  simp [appStack, dispatch, layerMatches, enterLayer, leaveLayer, runStage, Ctx.init,
    mountedUrl, Stage.routePath, h, hp, ha]

/-- A request below `/api` that the limiter admits reaches the body parsers. -/
theorem dispatch_admitted (now : Nat) (w : World) (req : Request) (h : req.method ≠ "OPTIONS")
    (hp : req.path.head? = some "api")
    (ha : (admission windowMs maxRequests w.limiter req.ip now).2 = true) :
    dispatch now appStack none (Ctx.init req) w
      = dispatch now bodyStack none
          { Ctx.init req with
            securityHeaders := true, corsHeaders := true, finishListeners := [now],
            trace := [.helmet, .cors, .limiter, .metrics] }
          { w with limiter := (admission windowMs maxRequests w.limiter req.ip now).1 } := by
  simp [appStack, bodyStack, dispatch, layerMatches, enterLayer, leaveLayer, runStage, Ctx.init,
    mountedUrl, Stage.routePath, h, hp, ha]

/-- A request outside `/api` reaches the body parsers without meeting the limiter. -/
theorem dispatch_unlimited (now : Nat) (w : World) (req : Request) (h : req.method ≠ "OPTIONS")
    (hp : req.path.head? ≠ some "api") :
    dispatch now appStack none (Ctx.init req) w
      = dispatch now bodyStack none
          { Ctx.init req with
            securityHeaders := true, corsHeaders := true, finishListeners := [now],
            trace := [.helmet, .cors, .metrics] } w := by
  simp [appStack, bodyStack, dispatch, layerMatches, enterLayer, leaveLayer, runStage, Ctx.init,
    mountedUrl, Stage.routePath, h, hp]

/-- A body over the limit is answered by the error handler. -/
theorem dispatch_too_large (now : Nat) (c : Ctx) (w : World) (b : Body)
    (hb : c.req.body = some b) (hk : b.kind = .json ∨ b.kind = .urlencoded)
    (hp : c.bodyParsed = false) (hl : bodyLimit < b.length) :
    dispatch now bodyStack none c w
      = errorHandler ⟨some 413, some "request entity too large"⟩
          { c with
            url := c.req.path
            trace := c.trace ++ (if b.kind = .json then [.json] else [.json, .urlencoded])
              ++ [.errorHandler] } w := by
  rcases hk with hk | hk <;>
    simp [bodyStack, dispatch, layerMatches, enterLayer, leaveLayer, runStage, bodyParser,
      mountedUrl, Stage.routePath, hb, hk, hp, hl]

/-- A well-formed body within the limit is parsed and the routes are tried. -/
theorem dispatch_decoded (now : Nat) (c : Ctx) (w : World) (b : Body)
    (hb : c.req.body = some b) (hk : b.kind = .json ∨ b.kind = .urlencoded)
    (hp : c.bodyParsed = false) (hl : b.length ≤ bodyLimit) (hw : b.wellFormed = true) :
    dispatch now bodyStack none c w
      = dispatch now routeStack none
          { c with
            url := c.req.path
            bodyParsed := true
            trace := c.trace ++ [.json, .urlencoded] } w := by
  rcases hk with hk | hk <;>
    simp [bodyStack, routeStack, dispatch, layerMatches, enterLayer, leaveLayer, runStage,
      bodyParser, mountedUrl, Stage.routePath, hb, hk, hp, hl, hw, Nat.not_lt.mpr hl]

/-- The trace only grows, and a stack of routes that ends in the fallback is
answered by a route or by the fallback. -/
theorem dispatch_answered (now : Nat) : ∀ stack err c w,
    (∀ s ∈ c.trace, s ∈ (dispatch now stack err c w).1.trace) ∧
    (err = none → Stage.notFound ∈ stack →
      (∀ s ∈ stack, (Stage.routePath s).isSome = true ∨ s = .notFound ∨ s = .errorHandler) →
      ∃ s ∈ (dispatch now stack err c w).1.trace,
        (Stage.routePath s).isSome = true ∨ s = .notFound) := by
  apply dispatch_ind now (fun stack err c w r =>
    (∀ s ∈ c.trace, s ∈ r.1.trace) ∧
    (err = none → Stage.notFound ∈ stack →
      (∀ s ∈ stack, (Stage.routePath s).isSome = true ∨ s = .notFound ∨ s = .errorHandler) →
      ∃ s ∈ r.1.trace, (Stage.routePath s).isSome = true ∨ s = .notFound))
  · intro err c w
    refine ⟨fun s hs => by cases err <;> simpa [finalHandler] using hs, fun _ h => ?_⟩
    simp at h
  · rintro s rest err c w r hskip ⟨h1, h2⟩
    refine ⟨h1, fun he hn hall => h2 he ?_ (fun s' hs' => hall s' (by simp [hs']))⟩
    simp only [List.mem_cons] at hn
    rcases hn with hn | hn
    · subst hn
      rcases hskip with h | ⟨h, -⟩ | ⟨-, h⟩
      · simp [layerMatches] at h
      · simp [he] at h
      · simp at h
    · exact hn
  · intro rest e c w
    refine ⟨fun s hs => by simp [errorHandler, hs], fun h => by simp at h⟩
  · intro s rest c w c2 w2 _ hs hrun
    have f := runStage_facts s now (enterLayer s c) w
    rw [hrun] at f
    have ht : c2.trace = c.trace ++ [s] := by simpa [enterLayer] using f.trace_eq
    refine ⟨fun s' hs' => by simp [ht, hs'], fun _ _ hall => ⟨s, by simp [ht], ?_⟩⟩
    rcases hall s (by simp) with h | h | h
    · exact Or.inl h
    · exact Or.inr h
    · exact absurd h hs
  · rintro s rest c w c2 w2 r _ hs hrun ⟨h1, -⟩
    have f := runStage_facts s now (enterLayer s c) w
    rw [hrun] at f
    have ht : (leaveLayer c2).trace = c.trace ++ [s] := by
      simpa [enterLayer, leaveLayer] using f.trace_eq
    refine ⟨fun s' hs' => h1 s' (by simp [ht, hs']), fun _ _ hall => ⟨s, h1 s (by simp [ht]), ?_⟩⟩
    rcases hall s (by simp) with h | h | h
    · exact Or.inl h
    · exact Or.inr h
    · exact absurd h hs
  · rintro s rest c w e c2 w2 r _ hs hrun ⟨h1, -⟩
    have f := runStage_facts s now (enterLayer s c) w
    rw [hrun] at f
    have ht : (leaveLayer c2).trace = c.trace ++ [s] := by
      simpa [enterLayer, leaveLayer] using f.trace_eq
    refine ⟨fun s' hs' => h1 s' (by simp [ht, hs']), fun _ _ hall => ⟨s, h1 s (by simp [ht]), ?_⟩⟩
    rcases hall s (by simp) with h | h | h
    · exact Or.inl h
    · exact Or.inr h
    · exact absurd h hs

/-- Behind the body parsers a route or the fallback runs. -/
theorem dispatch_routes (now : Nat) (c : Ctx) (w : World) :
    ∃ s ∈ (dispatch now routeStack none c w).1.trace,
      (Stage.routePath s).isSome = true ∨ s = .notFound :=
  (dispatch_answered now routeStack none c w).2 rfl (by simp [routeStack])
    (by simp [routeStack, Stage.routePath])

/-- A layer in front of the body parsers is neither a route nor the fallback. -/
theorem not_route_of_not_mem (s : Stage) (h : s ∉ bodyStack) :
    Stage.routePath s = none ∧ s ≠ Stage.notFound := by
  cases s <;> simp [bodyStack, Stage.routePath] at h ⊢

/-- Only the limiter answers 429: every other layer keeps a status and a body
that are not the limiter's, and raises no error of status 429. -/
theorem runStage_status (s : Stage) (now : Nat) (c : Ctx) (w : World)
    (hs : s ≠ Stage.limiter) (hc : c.statusCode ≠ 429) (hb : c.body ≠ ResBody.tooManyRequests) :
    (runStage s now c w).2.1.statusCode ≠ 429 ∧
    (runStage s now c w).2.1.body ≠ ResBody.tooManyRequests ∧
    ∀ e, (runStage s now c w).1 = Signal.nextErr e → e.status ≠ some 429 := by
  cases s
  case limiter => exact absurd rfl hs
  case json =>
    rcases bodyParser_ctx .json bodyLimit c with h | h
    all_goals
      refine ⟨by simp [runStage, h, hc], by simp [runStage, h, hb], ?_⟩
      intro e
      simp only [runStage, bodyParser]
      split <;> (try split_ifs) <;> simp <;> (try (rintro rfl; simp))
  case urlencoded =>
    rcases bodyParser_ctx .urlencoded bodyLimit c with h | h
    all_goals
      refine ⟨by simp [runStage, h, hc], by simp [runStage, h, hb], ?_⟩
      intro e
      simp only [runStage, bodyParser]
      split <;> (try split_ifs) <;> simp <;> (try (rintro rfl; simp))
  all_goals
    simp only [runStage]
    (try split) <;> (try split) <;> simp_all

/-- Behind the limiter no response carries the limiter's status or body. -/
theorem dispatch_status (now : Nat) : ∀ stack err c w,
    Stage.limiter ∉ stack → c.statusCode ≠ 429 → c.body ≠ ResBody.tooManyRequests →
    (∀ e, err = some e → e.status ≠ some 429) →
    (dispatch now stack err c w).1.statusCode ≠ 429 ∧
    (dispatch now stack err c w).1.body ≠ ResBody.tooManyRequests := by
  apply dispatch_ind now (fun stack err c w r =>
    Stage.limiter ∉ stack → c.statusCode ≠ 429 → c.body ≠ ResBody.tooManyRequests →
    (∀ e, err = some e → e.status ≠ some 429) →
    r.1.statusCode ≠ 429 ∧ r.1.body ≠ ResBody.tooManyRequests)
  · intro err c w _ hc hb he
    cases err with
    | none => exact ⟨by simp [finalHandler], by simpa [finalHandler] using hb⟩
    | some e =>
      refine ⟨?_, by simpa [finalHandler] using hb⟩
      have := he e rfl
      cases hst : e.status with
      | none => simp [finalHandler, hst]
      | some n =>
        simp only [finalHandler, hst, Option.getD_some]
        intro h'; exact this (by rw [hst, h'])
  · intro s rest err c w r _ ih hl hc hb he
    exact ih (fun h' => hl (List.mem_cons_of_mem _ h')) hc hb he
  · intro rest e c w _ _ _ _
    exact ⟨by simp [errorHandler], by simp [errorHandler, errorBody]⟩
  · intro s rest c w c2 w2 _ _ hrun hl hc hb _
    have hs : s ≠ Stage.limiter := fun h' => hl (by simp [h'])
    have f := runStage_status s now (enterLayer s c) w hs (by simpa [enterLayer] using hc)
      (by simpa [enterLayer] using hb)
    rw [hrun] at f
    exact ⟨f.1, f.2.1⟩
  · intro s rest c w c2 w2 r _ _ hrun ih hl hc hb _
    have hs : s ≠ Stage.limiter := fun h' => hl (by simp [h'])
    have f := runStage_status s now (enterLayer s c) w hs (by simpa [enterLayer] using hc)
      (by simpa [enterLayer] using hb)
    rw [hrun] at f
    exact ih (fun h' => hl (List.mem_cons_of_mem _ h')) (by simpa [leaveLayer] using f.1)
      (by simpa [leaveLayer] using f.2.1) (fun e h' => by cases h')
  · intro s rest c w e c2 w2 r _ _ hrun ih hl hc hb _
    have hs : s ≠ Stage.limiter := fun h' => hl (by simp [h'])
    have f := runStage_status s now (enterLayer s c) w hs (by simpa [enterLayer] using hc)
      (by simpa [enterLayer] using hb)
    rw [hrun] at f
    exact ih (fun h' => hl (List.mem_cons_of_mem _ h')) (by simpa [leaveLayer] using f.1)
      (by simpa [leaveLayer] using f.2.1) (fun e' h' => by cases h'; exact f.2.2 e rfl)

/-- Without a pending error the first layer of the stack runs when it matches
the request. -/
theorem dispatch_head_runs (now : Nat) (s : Stage) (rest : List Stage) (c : Ctx) (w : World)
    (hm : layerMatches s c.req = true) (hs : s ≠ Stage.errorHandler) :
    s ∈ (dispatch now (s :: rest) none c w).1.trace := by
  have f := runStage_facts s now (enterLayer s c) w
  have ht : (runStage s now (enterLayer s c) w).2.1.trace = c.trace ++ [s] := by
    simpa [enterLayer] using f.trace_eq
  rcases hrun : runStage s now (enterLayer s c) w with ⟨sig, c2, w2⟩
  rw [hrun] at ht
  have ht2 : c2.trace = c.trace ++ [s] := ht
  cases sig with
  | next =>
    have : dispatch now (s :: rest) none c w = dispatch now rest none (leaveLayer c2) w2 := by
      simp [dispatch, hm, hs, hrun]
    rw [this]
    exact (dispatch_answered now rest none (leaveLayer c2) w2).1 s (by simp [leaveLayer, ht2])
  | nextErr e =>
    have : dispatch now (s :: rest) none c w = dispatch now rest (some e) (leaveLayer c2) w2 := by
      simp [dispatch, hm, hs, hrun]
    rw [this]
    exact (dispatch_answered now rest (some e) (leaveLayer c2) w2).1 s (by simp [leaveLayer, ht2])
  | ended =>
    have : dispatch now (s :: rest) none c w = (c2, w2) := by
      simp [dispatch, hm, hs, hrun]
    rw [this]; simp [ht2]

/-! ## Facts about a whole request -/

/-- The final request state of `handle` is that of the router loop. -/
theorem handle_fst (w : World) (req : Request) (now fin : Nat) :
    (handle w req now fin).1 = (dispatch now appStack none (Ctx.init req) w).1 := rfl

/-- The registry after `handle` is the one the `finish` event leaves. -/
theorem handle_registry (w : World) (req : Request) (now fin : Nat) :
    (handle w req now fin).2.registry
      = emitFinish fin (dispatch now appStack none (Ctx.init req) w).1
          (dispatch now appStack none (Ctx.init req) w).2.registry := rfl

/-- The `finish` event does not touch the store of the limiter. -/
theorem handle_limiter (w : World) (req : Request) (now fin : Nat) :
    (handle w req now fin).2.limiter
      = (dispatch now appStack none (Ctx.init req) w).2.limiter := rfl

/-- The trace of a request lists layers in the order of registration, the
request of the final state is the request, and the `finish` event records one
sample if the metrics middleware ran and none otherwise. -/
theorem handle_records (w : World) (req : Request) (now fin : Nat) :
    (handle w req now fin).1.trace.Sublist appStack ∧
    (handle w req now fin).1.req = req ∧
    (Stage.metrics ∈ (handle w req now fin).1.trace →
      (handle w req now fin).2.registry.httpRequestsTotal
        = w.registry.httpRequestsTotal ++
          [⟨req.method, (handle w req now fin).1.statusCode,
            routeLabel (handle w req now fin).1⟩] ∧
      (handle w req now fin).2.registry.httpRequestDuration
        = w.registry.httpRequestDuration ++
          [⟨req.method, routeLabel (handle w req now fin).1, (fin : Int) - (now : Int)⟩]) ∧
    (Stage.metrics ∉ (handle w req now fin).1.trace →
      (handle w req now fin).2.registry.httpRequestsTotal = w.registry.httpRequestsTotal ∧
      (handle w req now fin).2.registry.httpRequestDuration
        = w.registry.httpRequestDuration) := by
  obtain ⟨t, h⟩ := dispatch_facts now appStack none (Ctx.init req) w
  have ht : (dispatch now appStack none (Ctx.init req) w).1.trace = t := by
    simpa [Ctx.init] using h.trace_eq
  have hreq : (dispatch now appStack none (Ctx.init req) w).1.req = req := by
    simpa [Ctx.init] using h.req_eq
  have hl : (dispatch now appStack none (Ctx.init req) w).1.finishListeners
      = List.replicate (t.count Stage.metrics) now := by
    simpa [Ctx.init] using h.listeners
  have hle : t.count Stage.metrics ≤ 1 :=
    (h.sub.count_le Stage.metrics).trans (by decide)
  rw [handle_fst, handle_registry, ht]
  refine ⟨h.sub, hreq, fun hm => ?_, fun hm => ?_⟩
  · have hc : t.count Stage.metrics = 1 :=
      Nat.le_antisymm hle (List.count_pos_iff.mpr hm)
    simp [emitFinish, finishHook, hl, hc, hreq, h.counter, h.histogram]
  · have hc : t.count Stage.metrics = 0 := List.count_eq_zero.mpr hm
    simp [emitFinish, hl, hc, h.counter, h.histogram]

/-- The three ways through the layers in front of the body parsers: `cors`
answers a preflight request, the limiter refuses the request, or the request
passes the metrics middleware and reaches the body parsers with its `finish`
listener registered. -/
theorem handle_cases (w : World) (req : Request) (now : Nat) :
    (req.method = "OPTIONS" ∧
      (dispatch now appStack none (Ctx.init req) w).1.trace = [.helmet, .cors]) ∨
    (req.method ≠ "OPTIONS" ∧ req.path.head? = some "api" ∧
      (admission windowMs maxRequests w.limiter req.ip now).2 = false ∧
      (dispatch now appStack none (Ctx.init req) w).1.trace = [.helmet, .cors, .limiter]) ∨
    (req.method ≠ "OPTIONS" ∧
      (req.path.head? = some "api" →
        (admission windowMs maxRequests w.limiter req.ip now).2 = true) ∧
      ∃ c4 w4, dispatch now appStack none (Ctx.init req) w = dispatch now bodyStack none c4 w4 ∧
        c4.req = req ∧ c4.url = req.path ∧ c4.route = none ∧ c4.bodyParsed = false ∧
        w4.env = w.env ∧ Stage.metrics ∈ c4.trace ∧ ∀ s ∈ c4.trace, s ∉ bodyStack) := by
  by_cases h : req.method = "OPTIONS"
  · left; exact ⟨h, by rw [dispatch_options now w req h]⟩
  · right
    by_cases hp : req.path.head? = some "api"
    · cases ha : (admission windowMs maxRequests w.limiter req.ip now).2
      · left; exact ⟨h, hp, rfl, by rw [dispatch_rejected now w req h hp ha]⟩
      · right
        refine ⟨h, fun _ => rfl, _, _, dispatch_admitted now w req h hp ha, ?_⟩
        simp [Ctx.init, bodyStack]
    · right
      refine ⟨h, fun h' => absurd h' hp, _, _, dispatch_unlimited now w req h hp, ?_⟩
      simp [Ctx.init, bodyStack]

/-- A layer behind the metrics middleware runs only after the metrics
middleware. -/
theorem metrics_before (w : World) (req : Request) (now fin : Nat) (s : Stage)
    (hs : s ∈ bodyStack) (h : s ∈ (handle w req now fin).1.trace) :
    ∃ l₁ l₂, (handle w req now fin).1.trace = l₁ ++ s :: l₂ ∧ Stage.metrics ∈ l₁ := by
  rw [handle_fst] at h ⊢
  rcases handle_cases w req now with ⟨-, ht⟩ | ⟨-, -, -, ht⟩ | ⟨-, -, c4, w4, he, -, -, -, -, -, hm, hn⟩
  · rw [ht] at h; exfalso; revert h hs; simp only [bodyStack]; revert s; decide
  · rw [ht] at h; exfalso; revert h hs; simp only [bodyStack]; revert s; decide
  · obtain ⟨t, f⟩ := dispatch_facts now bodyStack none c4 w4
    rw [he, f.trace_eq] at h ⊢
    rcases List.mem_append.mp h with h | h
    · exact absurd hs (hn s h)
    · obtain ⟨a, b, rfl⟩ := List.append_of_mem h
      exact ⟨c4.trace ++ a, b, by simp, by simp [hm]⟩

/-- A request outside `/api` never meets the limiter. -/
theorem limiter_skipped (w : World) (req : Request) (now fin : Nat)
    (hp : req.path.head? ≠ some "api") :
    (handle w req now fin).2.limiter = w.limiter ∧
    Stage.limiter ∉ (handle w req now fin).1.trace := by
  rw [handle_limiter, handle_fst]
  by_cases h : req.method = "OPTIONS"
  · rw [dispatch_options now w req h]; exact ⟨rfl, by simp⟩
  · rw [dispatch_unlimited now w req h hp]
    obtain ⟨t, f⟩ := dispatch_facts now bodyStack none
      { Ctx.init req with
        securityHeaders := true, corsHeaders := true, finishListeners := [now],
        trace := [.helmet, .cors, .metrics] } w
    have hl : Stage.limiter ∉ t := fun h' => absurd (f.sub.subset h') (by decide)
    refine ⟨f.limiter_eq hl, ?_⟩
    rw [f.trace_eq]
    simp [hl]

/-- Which requests meet the limiter, and what it does to them: a request is
counted exactly when it is not a preflight request and lies below `/api`; it is
answered 429 exactly when it is counted and refused, and then no later layer
runs; a counted request that is admitted goes on to the metrics middleware and
the body parsers. -/
theorem limiter_pipeline (w : World) (req : Request) (now fin : Nat) :
    (Stage.limiter ∈ (handle w req now fin).1.trace ↔
      req.method ≠ "OPTIONS" ∧ req.path.head? = some "api") ∧
    (handle w req now fin).2.limiter
      = (if req.method ≠ "OPTIONS" ∧ req.path.head? = some "api"
          then (admission windowMs maxRequests w.limiter req.ip now).1 else w.limiter) ∧
    ((handle w req now fin).1.statusCode = 429 ↔
      req.method ≠ "OPTIONS" ∧ req.path.head? = some "api" ∧
        (admission windowMs maxRequests w.limiter req.ip now).2 = false) ∧
    ((handle w req now fin).1.statusCode = 429 →
      (handle w req now fin).1.trace = [.helmet, .cors, .limiter]) ∧
    (req.method ≠ "OPTIONS" → req.path.head? = some "api" →
      (admission windowMs maxRequests w.limiter req.ip now).2 = true →
      Stage.metrics ∈ (handle w req now fin).1.trace ∧
      Stage.json ∈ (handle w req now fin).1.trace) ∧
    (req.method = "OPTIONS" → (handle w req now fin).1.statusCode = 204) := by
  rw [handle_limiter, handle_fst]
  by_cases h : req.method = "OPTIONS"
  · rw [dispatch_options now w req h]
    simp [h]
  · by_cases hp : req.path.head? = some "api"
    · cases ha : (admission windowMs maxRequests w.limiter req.ip now).2
      · rw [dispatch_rejected now w req h hp ha]
        simp [h, hp]
      · rw [dispatch_admitted now w req h hp ha]
        obtain ⟨t, f⟩ := dispatch_facts now bodyStack none
          { Ctx.init req with
            securityHeaders := true, corsHeaders := true, finishListeners := [now],
            trace := [.helmet, .cors, .limiter, .metrics] }
          { w with limiter := (admission windowMs maxRequests w.limiter req.ip now).1 }
        have hl : Stage.limiter ∉ t := fun h' => absurd (f.sub.subset h') (by decide)
        have hst := dispatch_status now bodyStack none
          { Ctx.init req with
            securityHeaders := true, corsHeaders := true, finishListeners := [now],
            trace := [.helmet, .cors, .limiter, .metrics] }
          { w with limiter := (admission windowMs maxRequests w.limiter req.ip now).1 }
          (by decide) (by simp [Ctx.init]) (by simp [Ctx.init]) (fun e h' => by cases h')
        have hj := dispatch_head_runs now .json
          [.urlencoded, .getHealth, .getApi, .getApiData, .getMetrics, .errorHandler, .notFound]
          { Ctx.init req with
            securityHeaders := true, corsHeaders := true, finishListeners := [now],
            trace := [.helmet, .cors, .limiter, .metrics] }
          { w with limiter := (admission windowMs maxRequests w.limiter req.ip now).1 }
          rfl (by decide)
        refine ⟨?_, ?_, ?_, ?_, ?_, fun h' => absurd h' h⟩
        · rw [f.trace_eq]; simp [h, hp]
        · rw [f.limiter_eq hl]; simp [h, hp]
        · simp [h, hp, hst.1]
        · intro h'; exact absurd h' hst.1
        · intro _ _ _
          exact ⟨by rw [f.trace_eq]; simp, hj⟩
    · rw [dispatch_unlimited now w req h hp]
      obtain ⟨t, f⟩ := dispatch_facts now bodyStack none
        { Ctx.init req with
          securityHeaders := true, corsHeaders := true, finishListeners := [now],
          trace := [.helmet, .cors, .metrics] } w
      have hl : Stage.limiter ∉ t := fun h' => absurd (f.sub.subset h') (by decide)
      have hst := dispatch_status now bodyStack none
        { Ctx.init req with
          securityHeaders := true, corsHeaders := true, finishListeners := [now],
          trace := [.helmet, .cors, .metrics] } w
        (by decide) (by simp [Ctx.init]) (by simp [Ctx.init]) (fun e h' => by cases h')
      refine ⟨?_, ?_, ?_, ?_, fun _ h' => absurd h' hp, fun h' => absurd h' h⟩
      · rw [f.trace_eq]; simp [hp, hl]
      · rw [f.limiter_eq hl]; simp [hp]
      · simp [hp, hst.1]
      · intro h'; exact absurd h' hst.1

/-! ## Facts about the limiter and the shutdown handler -/

/-- The limiter only touches the record of the client it serves. -/
theorem admission_other (window cap : Nat) (store : LimiterStore) (client other : String) (t : Nat)
    (h : other ≠ client) : (admission window cap store other t).1 client = store client := by
  simp [admission, Ne.symm h]

/-- Inside an open window every request adds one to the count and is admitted
while the count stays within the cap. -/
theorem admissions_in_window (client : String) (start : Nat) :
    ∀ (ts : List Nat) (store : LimiterStore) (k : Nat),
      store client = some ⟨start, k⟩ → (∀ t ∈ ts, t < start + windowMs) →
      (admissions store client ts).1 client = some ⟨start, k + ts.length⟩ ∧
      (admissions store client ts).2
        = (List.range ts.length).map (fun i => decide (k + i + 1 ≤ maxRequests)) := by
  intro ts
  induction ts with
  | nil => intro store k hs _; simp [admissions, hs]
  | cons t ts ih =>
    intro store k hs hw
    have ht : t < start + windowMs := hw t (by simp)
    have h1 : (admission windowMs maxRequests store client t).1 client = some ⟨start, k + 1⟩ := by
      simp [admission, hs, ht]
    have h2 : (admission windowMs maxRequests store client t).2 = decide (k + 1 ≤ maxRequests) := by
      simp [admission, hs, ht]
    obtain ⟨i1, i2⟩ := ih _ (k + 1) h1 (fun t' ht' => hw t' (by simp [ht']))
    constructor
    · simp only [admissions, i1, List.length_cons]; congr 2; omega
    · simp only [admissions, i2, h2, List.length_cons, List.range_succ_eq_map, List.map_cons,
        List.map_map]
      congr 1
      apply List.map_congr_left
      intro i _
      simp only [Function.comp, Nat.succ_eq_add_one]
      congr 1
      apply propext
      omega

/-- The first request of a client without an open window opens one. -/
theorem admission_opens_window (store : LimiterStore) (client : String) (t : Nat)
    (h : ∀ r, store client = some r → r.start + windowMs ≤ t) :
    (admission windowMs maxRequests store client t).1 client = some ⟨t, 1⟩ ∧
    (admission windowMs maxRequests store client t).2 = true := by
  cases hs : store client with
  | none => simp [admission, hs, maxRequests]
  | some r =>
    have := h r hs
    simp [admission, hs, Nat.not_lt.mpr this, maxRequests]

/-- The exit code, once set, stays. -/
theorem shutdownStep_exited (p : Process) (e : ShutdownEvent) (h : p.exitCode.isSome = true) :
    shutdownStep p e = p := by
  cases e <;> simp [shutdownStep, h]

/-- While the process runs every signal called `close()` and every call is
still pending; the exit code is 0 or 1 once set. -/
theorem shutdownRun_inv (events : List ShutdownEvent) :
    ((shutdownRun Process.init events).exitCode = none →
      (shutdownRun Process.init events).closeCalls = events.count .sigint ∧
      (shutdownRun Process.init events).pendingCloses = events.count .sigint) ∧
    ((shutdownRun Process.init events).exitCode = none ∨
      (shutdownRun Process.init events).exitCode = some 0 ∨
      (shutdownRun Process.init events).exitCode = some 1) := by
  induction events using List.reverseRecOn with
  | nil => simp [shutdownRun, Process.init]
  | append_singleton l e ih =>
    have hrun : shutdownRun Process.init (l ++ [e])
        = shutdownStep (shutdownRun Process.init l) e := by
      simp [shutdownRun, List.foldl_append]
    rw [hrun]
    cases hx : (shutdownRun Process.init l).exitCode with
    | some n =>
      rw [shutdownStep_exited _ e (by simp [hx])]
      refine ⟨fun h => by simp [hx] at h, ?_⟩
      simpa [hx] using ih.2
    | none =>
      obtain ⟨hc, hp⟩ := ih.1 hx
      cases e with
      | sigint =>
        simp [shutdownStep, hx, hc, hp, List.count_append]
      | closeSettled ok =>
        by_cases hz : (shutdownRun Process.init l).pendingCloses = 0
        · have hstep : shutdownStep (shutdownRun Process.init l) (.closeSettled ok)
              = shutdownRun Process.init l := by
            simp [shutdownStep, hz]
          rw [hstep]
          exact ⟨fun _ => ⟨by simpa [List.count_append] using hc,
            by simpa [List.count_append] using hp⟩, Or.inl hx⟩
        · cases ok <;> simp [shutdownStep, hx, hz]

/-! ## The claims -/

/-- Claim C1. For every request whose trace contains the metrics middleware, whatever
the outcome of the route handler, the `finish` event adds exactly one increment
to `http_requests_total` and exactly one observation to
`http_request_duration_seconds`; the increment carries the method of the
request, the route label and the final status code. -/
theorem metrics_recorded_once (w : World) (req : Request) (now finishedAt : Nat)
    (h : Stage.metrics ∈ (handle w req now finishedAt).1.trace) :
    (handle w req now finishedAt).2.registry.httpRequestsTotal
      = w.registry.httpRequestsTotal ++
        [⟨req.method, (handle w req now finishedAt).1.statusCode,
          routeLabel (handle w req now finishedAt).1⟩] ∧
    (handle w req now finishedAt).2.registry.httpRequestDuration
      = w.registry.httpRequestDuration ++
        [⟨req.method, routeLabel (handle w req now finishedAt).1,
          (finishedAt : Int) - (now : Int)⟩] ∧
    ∀ l : CounterSample,
      (handle w req now finishedAt).2.registry.requestCount l
        = w.registry.requestCount l +
          (if l = ⟨req.method, (handle w req now finishedAt).1.statusCode,
              routeLabel (handle w req now finishedAt).1⟩ then 1 else 0) := by
  obtain ⟨h1, h2⟩ := (handle_records w req now finishedAt).2.2.1 h
  refine ⟨h1, h2, fun l => ?_⟩
  simp only [Registry.requestCount, h1, List.count_append, List.count_singleton]
  congr 1
  by_cases hl : l = ⟨req.method, (handle w req now finishedAt).1.statusCode,
      routeLabel (handle w req now finishedAt).1⟩
  · simp [hl]
  · have hl' : ¬ (⟨req.method, (handle w req now finishedAt).1.statusCode,
        routeLabel (handle w req now finishedAt).1⟩ : CounterSample) = l := fun h' => hl h'.symm
    simp [hl, hl']

/-- Witness of C1: `GET /health` reaches the metrics middleware and is recorded
once, with status 200 and label `/health`. -/
theorem metrics_recorded_once_witness :
    Stage.metrics ∈ (handle freshWorld healthRequest 5 9).1.trace ∧
    (handle freshWorld healthRequest 5 9).1.statusCode = 200 ∧
    routeLabel (handle freshWorld healthRequest 5 9).1 = "/health" ∧
    (handle freshWorld healthRequest 5 9).2.registry.httpRequestsTotal
      = freshWorld.registry.httpRequestsTotal ++
        [⟨healthRequest.method, (handle freshWorld healthRequest 5 9).1.statusCode,
          routeLabel (handle freshWorld healthRequest 5 9).1⟩] ∧
    (handle freshWorld healthRequest 5 9).2.registry.httpRequestDuration
      = freshWorld.registry.httpRequestDuration ++
        [⟨healthRequest.method, routeLabel (handle freshWorld healthRequest 5 9).1,
          ((9 : Nat) : Int) - ((5 : Nat) : Int)⟩] :=
  ⟨by decide, by decide, by decide,
    (metrics_recorded_once freshWorld healthRequest 5 9 (by decide)).1,
    (metrics_recorded_once freshWorld healthRequest 5 9 (by decide)).2.1⟩

/-- Counterexample to C2: the 101st `GET /api/data` of a client in one window is
answered 429 by the limiter, the metrics middleware never runs, and neither
`http_requests_total` nor the duration histogram receives a sample. -/
theorem rejected_request_not_counted :
    (handle saturatedWorld apiDataRequest 5 9).1.statusCode = 429 ∧
    (handle saturatedWorld apiDataRequest 5 9).1.trace = [.helmet, .cors, .limiter] ∧
    (handle saturatedWorld apiDataRequest 5 9).2.registry.httpRequestsTotal = [] ∧
    (handle saturatedWorld apiDataRequest 5 9).2.registry.httpRequestDuration = [] := by
  decide

/-- Claim C2, amended. A request that the rate limiter refuses is answered 429 and
leaves `http_requests_total` and the duration histogram unchanged, because the
limiter is registered in front of the metrics middleware; every request
answered by the error handler (a body over the limit, a handler that throws)
records exactly one increment, with status 500, and one observation. -/
theorem error_paths_metrics (w : World) (req : Request) (now finishedAt : Nat) :
    (req.method ≠ "OPTIONS" → req.path.head? = some "api" →
      (admission windowMs maxRequests w.limiter req.ip now).2 = false →
      (handle w req now finishedAt).1.statusCode = 429 ∧
      (handle w req now finishedAt).2.registry.httpRequestsTotal
        = w.registry.httpRequestsTotal ∧
      (handle w req now finishedAt).2.registry.httpRequestDuration
        = w.registry.httpRequestDuration) ∧
    (Stage.errorHandler ∈ (handle w req now finishedAt).1.trace →
      (handle w req now finishedAt).2.registry.httpRequestsTotal
        = w.registry.httpRequestsTotal ++
          [⟨req.method, 500, routeLabel (handle w req now finishedAt).1⟩] ∧
      (handle w req now finishedAt).2.registry.httpRequestDuration
        = w.registry.httpRequestDuration ++
          [⟨req.method, routeLabel (handle w req now finishedAt).1,
            (finishedAt : Int) - (now : Int)⟩]) := by
  constructor
  · intro h hp ha
    have hr := (handle_records w req now finishedAt).2.2.2
    have ht : (handle w req now finishedAt).1.trace = [.helmet, .cors, .limiter] := by
      rw [handle_fst, dispatch_rejected now w req h hp ha]
    refine ⟨?_, hr (by rw [ht]; decide)⟩
    rw [handle_fst, dispatch_rejected now w req h hp ha]
  · intro he
    obtain ⟨l₁, l₂, ht, hm⟩ := metrics_before w req now finishedAt .errorHandler
      (by simp [bodyStack]) he
    have hr := (handle_records w req now finishedAt).2.2.1 (by rw [ht]; simp [hm])
    obtain ⟨t, f⟩ := dispatch_facts now appStack none (Ctx.init req) w
    have hst : (handle w req now finishedAt).1.statusCode = 500 := by
      have ht' : (dispatch now appStack none (Ctx.init req) w).1.trace = t := by
        simpa [Ctx.init] using f.trace_eq
      rw [handle_fst] at he ⊢
      exact (f.handled (ht' ▸ he)).1
    rw [hst] at hr
    exact hr

/-- Witness of C2 amended: the refused `GET /api/data` records nothing, the
oversized `POST /upload` is answered by the error handler and recorded once. -/
theorem error_paths_metrics_witness :
    (apiDataRequest.method ≠ "OPTIONS" ∧ apiDataRequest.path.head? = some "api" ∧
      (admission windowMs maxRequests saturatedWorld.limiter apiDataRequest.ip 5).2 = false ∧
      (handle saturatedWorld apiDataRequest 5 9).1.statusCode = 429 ∧
      (handle saturatedWorld apiDataRequest 5 9).2.registry.httpRequestsTotal
        = saturatedWorld.registry.httpRequestsTotal ∧
      (handle saturatedWorld apiDataRequest 5 9).2.registry.httpRequestDuration
        = saturatedWorld.registry.httpRequestDuration) ∧
    (Stage.errorHandler ∈ (handle freshWorld oversizedUpload 5 9).1.trace ∧
      (handle freshWorld oversizedUpload 5 9).2.registry.httpRequestsTotal
        = freshWorld.registry.httpRequestsTotal ++
          [⟨oversizedUpload.method, 500, routeLabel (handle freshWorld oversizedUpload 5 9).1⟩] ∧
      (handle freshWorld oversizedUpload 5 9).2.registry.httpRequestDuration
        = freshWorld.registry.httpRequestDuration ++
          [⟨oversizedUpload.method, routeLabel (handle freshWorld oversizedUpload 5 9).1,
            ((9 : Nat) : Int) - ((5 : Nat) : Int)⟩]) :=
  ⟨⟨by decide, by decide, by decide,
      (error_paths_metrics saturatedWorld apiDataRequest 5 9).1 (by decide) (by decide)
        (by decide)⟩,
    ⟨by decide, (error_paths_metrics freshWorld oversizedUpload 5 9).2 (by decide)⟩⟩

/-- Counterexample to C3: a JSON body one byte over the limit is answered with
status 500, which is not a client-error status. -/
theorem oversized_body_answered_500 :
    oversizedUpload.body = some ⟨.json, bodyLimit + 1, true⟩ ∧
    (handle freshWorld oversizedUpload 5 9).1.statusCode = 500 ∧
    ¬ (400 ≤ (handle freshWorld oversizedUpload 5 9).1.statusCode ∧
        (handle freshWorld oversizedUpload 5 9).1.statusCode < 500) := by
  decide

/-- Claim C3, amended. With the limit of 10485760 bytes, for every request with a
JSON or urlencoded body that reaches the body parsers: a well-formed body of
exactly the limit is parsed and a route or the fallback runs; a body over the
limit is refused before any route or the fallback runs, and the error handler
answers it with status 500 and the body built from the 413 error. -/
theorem body_ceiling (w : World) (req : Request) (now finishedAt : Nat) (b : Body)
    (hb : req.body = some b) (hk : b.kind = .json ∨ b.kind = .urlencoded)
    (hreach : Stage.json ∈ (handle w req now finishedAt).1.trace) :
    bodyLimit = 10485760 ∧
    (b.length = bodyLimit → b.wellFormed = true →
      (handle w req now finishedAt).1.bodyParsed = true ∧
      ∃ s ∈ (handle w req now finishedAt).1.trace,
        (Stage.routePath s).isSome = true ∨ s = .notFound) ∧
    (bodyLimit < b.length →
      (handle w req now finishedAt).1.statusCode = 500 ∧
      (handle w req now finishedAt).1.body
        = errorBody w.env.nodeEnv ⟨some 413, some "request entity too large"⟩ ∧
      Stage.errorHandler ∈ (handle w req now finishedAt).1.trace ∧
      ∀ s ∈ (handle w req now finishedAt).1.trace,
        Stage.routePath s = none ∧ s ≠ .notFound) := by
  refine ⟨by decide, ?_⟩
  rw [handle_fst] at hreach ⊢
  rcases handle_cases w req now with ⟨-, ht⟩ | ⟨-, -, -, ht⟩ |
    ⟨-, -, c4, w4, he, hreq, -, -, hp, henv, -, hn⟩
  · rw [ht] at hreach; exact absurd hreach (by decide)
  · rw [ht] at hreach; exact absurd hreach (by decide)
  · have hb4 : c4.req.body = some b := by rw [hreq, hb]
    rw [he]
    constructor
    · intro hl hw
      rw [dispatch_decoded now c4 w4 b hb4 hk hp (Nat.le_of_eq hl) hw]
      obtain ⟨t, f⟩ := dispatch_facts now routeStack none
        { c4 with url := c4.req.path, bodyParsed := true, trace := c4.trace ++ [.json, .urlencoded] }
        w4
      exact ⟨f.parsed rfl, dispatch_routes now _ w4⟩
    · intro hl
      rw [dispatch_too_large now c4 w4 b hb4 hk hp hl]
      refine ⟨rfl, by simp [errorHandler, henv], by simp [errorHandler], ?_⟩
      intro s hs
      simp only [errorHandler, List.mem_append, List.mem_singleton] at hs
      rcases hs with (hs | hs) | hs
      · exact not_route_of_not_mem s (hn s hs)
      · split_ifs at hs <;> simp at hs <;> rcases hs with rfl | rfl <;> simp [Stage.routePath]
      · subst hs; simp [Stage.routePath]

/-- Witness of C3 amended: the upload of exactly the limit is parsed, the upload
one byte over it is answered 500. -/
theorem body_ceiling_witness :
    (fullUpload.body = some ⟨.json, 10485760, true⟩ ∧
      Stage.json ∈ (handle freshWorld fullUpload 5 9).1.trace ∧
      (⟨.json, 10485760, true⟩ : Body).length = bodyLimit ∧
      (handle freshWorld fullUpload 5 9).1.bodyParsed = true ∧
      ∃ s ∈ (handle freshWorld fullUpload 5 9).1.trace,
        (Stage.routePath s).isSome = true ∨ s = .notFound) ∧
    (oversizedUpload.body = some ⟨.json, 10485761, true⟩ ∧
      Stage.json ∈ (handle freshWorld oversizedUpload 5 9).1.trace ∧
      bodyLimit < (⟨.json, 10485761, true⟩ : Body).length ∧
      (handle freshWorld oversizedUpload 5 9).1.statusCode = 500) :=
  ⟨⟨rfl, by decide, by decide,
      (body_ceiling freshWorld fullUpload 5 9 ⟨.json, 10485760, true⟩ rfl (Or.inl rfl)
        (by decide)).2.1 (by decide) rfl⟩,
    ⟨rfl, by decide, by decide,
      ((body_ceiling freshWorld oversizedUpload 5 9 ⟨.json, 10485761, true⟩ rfl (Or.inl rfl)
        (by decide)).2.2 (by decide)).1⟩⟩

/-- Counterexample to C4: for `GET /health` the metrics middleware runs before the
body parsers, so the layers that ran are not in the order the specification
lists. -/
theorem metrics_runs_before_body_decoding :
    (handle freshWorld healthRequest 5 9).1.trace
      = [.helmet, .cors, .metrics, .json, .urlencoded, .getHealth] ∧
    ¬ (handle freshWorld healthRequest 5 9).1.trace.Sublist specOrder := by
  decide

/-- Claim C4, amended. The layers that run for a request run in the order of
registration: security headers, origin policy, rate limiter, metrics
middleware, JSON parser, urlencoded parser, the routes, the error handler, the
not-found fallback; whenever the JSON parser runs, the metrics middleware ran
before it. -/
theorem stages_in_registration_order (w : World) (req : Request) (now finishedAt : Nat) :
    (handle w req now finishedAt).1.trace.Sublist
      [.helmet, .cors, .limiter, .metrics, .json, .urlencoded,
       .getHealth, .getApi, .getApiData, .getMetrics, .errorHandler, .notFound] ∧
    (Stage.json ∈ (handle w req now finishedAt).1.trace →
      ∃ l₁ l₂, (handle w req now finishedAt).1.trace = l₁ ++ Stage.json :: l₂ ∧
        Stage.metrics ∈ l₁) :=
  ⟨(handle_records w req now finishedAt).1,
    metrics_before w req now finishedAt .json (by simp [bodyStack])⟩

/-- Witness of C4 amended: for `GET /health` the JSON parser runs, after the
metrics middleware. -/
theorem stages_in_registration_order_witness :
    Stage.json ∈ (handle freshWorld healthRequest 5 9).1.trace ∧
    ∃ l₁ l₂, (handle freshWorld healthRequest 5 9).1.trace = l₁ ++ Stage.json :: l₂ ∧
      Stage.metrics ∈ l₁ :=
  ⟨by decide, (stages_in_registration_order freshWorld healthRequest 5 9).2 (by decide)⟩

/-- Claim C5 fails on the code: after the connection succeeded, was lost, and was
established again, the state is `connected` and `GET /health` reports
`connected`, while the gauge `mongo_connections_active` is still 0. -/
theorem gauge_stale_after_reconnect :
    (mongoRun freshWorld
      [.connectSucceeded, .disconnected, .reconnectAttempt, .reconnected]).conn = .connected ∧
    mongoStatus (mongoRun freshWorld
      [.connectSucceeded, .disconnected, .reconnectAttempt, .reconnected]).conn = "connected" ∧
    (mongoRun freshWorld
      [.connectSucceeded, .disconnected, .reconnectAttempt, .reconnected]).registry.mongoConnections
      = 0 := by
  decide

/-- Counterexample to C6: a second `SIGINT` delivered while the first `close()` is
still pending calls `close()` a second time. -/
theorem second_signal_releases_again :
    (shutdownRun Process.init [.sigint]).pendingCloses = 1 ∧
    (shutdownRun Process.init [.sigint]).exitCode = none ∧
    (shutdownRun Process.init [.sigint, .sigint]).closeCalls = 2 := by
  decide

/-- Claim C6, amended. The handler keeps no record of a shutdown in progress: as
long as the process has not exited, the number of calls of the store-connection
release equals the number of signals delivered. -/
theorem release_called_per_signal (events : List ShutdownEvent)
    (h : (shutdownRun Process.init events).exitCode = none) :
    (shutdownRun Process.init events).closeCalls = events.count .sigint :=
  ((shutdownRun_inv events).1 h).1

/-- Witness of C6 amended: three signals, three calls of `close()`. -/
theorem release_called_per_signal_witness :
    (shutdownRun Process.init [.sigint, .sigint, .sigint]).exitCode = none ∧
    (shutdownRun Process.init [.sigint, .sigint, .sigint]).closeCalls
      = [ShutdownEvent.sigint, .sigint, .sigint].count .sigint :=
  ⟨by decide, release_called_per_signal [.sigint, .sigint, .sigint] (by decide)⟩

/-- Claim C7. On a signal the handler calls the store-connection release once and
does not exit before the call settles; it then exits with code 0 exactly when
the release succeeded and with code 1 exactly when it failed; whatever the
sequence of events, the handler produces no exit code other than 0 and 1. -/
theorem shutdown_exit_code (ok : Bool) (events : List ShutdownEvent) :
    (shutdownRun Process.init [.sigint]).closeCalls = 1 ∧
    (shutdownRun Process.init [.sigint]).exitCode = none ∧
    (shutdownRun Process.init [.sigint, .closeSettled ok]).closeCalls = 1 ∧
    ((shutdownRun Process.init [.sigint, .closeSettled ok]).exitCode = some 0 ↔ ok = true) ∧
    ((shutdownRun Process.init [.sigint, .closeSettled ok]).exitCode = some 1 ↔ ok = false) ∧
    ((shutdownRun Process.init events).exitCode = none ∨
      (shutdownRun Process.init events).exitCode = some 0 ∨
      (shutdownRun Process.init events).exitCode = some 1) := by
  refine ⟨by decide, by decide, ?_, ?_, ?_, (shutdownRun_inv events).2⟩ <;>
    cases ok <;> decide

/-- Counterexample to C8: with the environment name `staging`, which is not
`production`, the body carries the generic message and not the message of the
error. -/
theorem staging_hides_message :
    (some "staging" : Option String) ≠ some "production" ∧
    (errorHandler ⟨none, some "boom"⟩ (Ctx.init healthRequest)
      { freshWorld with env := ⟨some "staging", none, none⟩ }).1.body
      = .internalError "Internal server error" (some "Something went wrong") ∧
    (errorHandler ⟨none, some "boom"⟩ (Ctx.init healthRequest)
      { freshWorld with env := ⟨some "staging", none, none⟩ }).1.body
      ≠ .internalError "Internal server error" (some "boom") := by
  decide

/-- Claim C8, amended. For every error reaching the error handler and every value
the environment name is set to, the response is status 500 with the body
`error: 'Internal server error'` and `message`, where `message` is the message
of the error when the name is `development` and `'Something went wrong'` for
every other name. -/
theorem error_response (error : JsError) (c : Ctx) (w : World) (name : String)
    (h : w.env.nodeEnv = some name) :
    (errorHandler error c w).1.statusCode = 500 ∧
    (errorHandler error c w).1.body
      = .internalError "Internal server error"
          (if name = "development" then error.message else some "Something went wrong") := by
  simp [errorHandler, errorBody, h]

/-- Witness of C8 amended: with the name `development` the message of the error is
sent. -/
theorem error_response_witness :
    ({ freshWorld with env := ⟨some "development", none, none⟩ } : World).env.nodeEnv
      = some "development" ∧
    (errorHandler ⟨none, some "boom"⟩ (Ctx.init healthRequest)
      { freshWorld with env := ⟨some "development", none, none⟩ }).1.statusCode = 500 ∧
    (errorHandler ⟨none, some "boom"⟩ (Ctx.init healthRequest)
      { freshWorld with env := ⟨some "development", none, none⟩ }).1.body
      = .internalError "Internal server error"
          (if "development" = "development" then (⟨none, some "boom"⟩ : JsError).message
            else some "Something went wrong") :=
  ⟨rfl, error_response ⟨none, some "boom"⟩ (Ctx.init healthRequest)
    { freshWorld with env := ⟨some "development", none, none⟩ } "development" rfl⟩

/-- Counterexample to C9: a `POST /x/12345` whose body does not parse is recorded
with the route label `/x/12345`, the raw path, which is no registered route. -/
theorem raw_path_label :
    (handle freshWorld malformedPost 5 9).2.registry.httpRequestsTotal
      = [⟨"POST", 500, "/x/12345"⟩] ∧
    (handle freshWorld malformedPost 5 9).2.registry.httpRequestDuration
      = [⟨"POST", "/x/12345", 4⟩] ∧
    pathString malformedPost.path = "/x/12345" ∧
    "/x/12345" ∉ registeredRoutes := by
  decide

/-- Claim C9, amended. For every request that reaches the metrics middleware, the
label of the recorded increment and observation is the pattern of a registered
route when a route ran, `/` when the not-found fallback answered, and the raw
path of the request when neither ran (the error handler answered a request
refused by a body parser). -/
theorem route_label_of_sample (w : World) (req : Request) (now finishedAt : Nat)
    (h : Stage.metrics ∈ (handle w req now finishedAt).1.trace) :
    registeredRoutes = ["/health", "/api", "/api/data", "/metrics"] ∧
    ∃ label,
      (handle w req now finishedAt).2.registry.httpRequestsTotal
        = w.registry.httpRequestsTotal ++
          [⟨req.method, (handle w req now finishedAt).1.statusCode, label⟩] ∧
      (handle w req now finishedAt).2.registry.httpRequestDuration
        = w.registry.httpRequestDuration ++
          [⟨req.method, label, (finishedAt : Int) - (now : Int)⟩] ∧
      ((∃ s ∈ (handle w req now finishedAt).1.trace, (Stage.routePath s).isSome = true) →
        label ∈ registeredRoutes) ∧
      (Stage.notFound ∈ (handle w req now finishedAt).1.trace → label = "/") ∧
      ((∀ s ∈ (handle w req now finishedAt).1.trace, Stage.routePath s = none) →
        Stage.notFound ∉ (handle w req now finishedAt).1.trace →
        label = pathString req.path) := by
  refine ⟨by decide, routeLabel (handle w req now finishedAt).1, ?_⟩
  obtain ⟨h1, h2⟩ := (handle_records w req now finishedAt).2.2.1 h
  refine ⟨h1, h2, ?_⟩
  rw [handle_fst] at h ⊢
  rcases handle_cases w req now with ⟨-, ht⟩ | ⟨-, -, -, ht⟩ |
    ⟨-, -, c4, w4, he, hreq, hurl, hroute, -, -, -, hn⟩
  · rw [ht] at h; exact absurd h (by decide)
  · rw [ht] at h; exact absurd h (by decide)
  · obtain ⟨t, f⟩ := dispatch_facts now bodyStack none c4 w4
    rw [he, f.trace_eq]
    have hmem : ∀ s, s ∈ c4.trace ++ t →
        ((Stage.routePath s).isSome = true ∨ s = Stage.notFound) → s ∈ t := by
      intro s hs hq
      rcases List.mem_append.mp hs with hs | hs
      · have := not_route_of_not_mem s (hn s hs)
        rcases hq with hq | hq
        · simp [this.1] at hq
        · exact absurd hq this.2
      · exact hs
    refine ⟨?_, ?_, ?_⟩
    · rintro ⟨s, hs, hq⟩
      obtain ⟨p, hp, hr⟩ := f.route_reg (Or.inr ⟨s, hmem s hs (Or.inl hq), hq⟩)
      simpa [routeLabel, hr] using hp
    · intro hnf
      obtain ⟨hr, hu, -⟩ := f.fallback hroute (hmem _ hnf (Or.inr rfl))
      simp only [routeLabel, hr, hu]; decide
    · intro hall hnf
      have hr := f.route_keep (fun s hs => hall s (List.mem_append.mpr (Or.inr hs)))
      have hnf' : Stage.notFound ∉ t := fun h' => hnf (List.mem_append.mpr (Or.inr h'))
      rcases f.url_raw (by rw [hurl, hreq]) hnf' with hu | ⟨t', ht'⟩
      · simp [routeLabel, hr, hroute, hu, hreq]
      · have : Stage.limiter ∈ bodyStack := f.sub.subset (by simp [ht'])
        exact absurd this (by decide)

/-- Witness of C9 amended, at the `POST /x/12345` whose body does not parse. -/
theorem route_label_of_sample_witness :
    Stage.metrics ∈ (handle freshWorld malformedPost 5 9).1.trace ∧
    ∃ label,
      (handle freshWorld malformedPost 5 9).2.registry.httpRequestsTotal
        = freshWorld.registry.httpRequestsTotal ++
          [⟨malformedPost.method, (handle freshWorld malformedPost 5 9).1.statusCode, label⟩] ∧
      (handle freshWorld malformedPost 5 9).2.registry.httpRequestDuration
        = freshWorld.registry.httpRequestDuration ++
          [⟨malformedPost.method, label, ((9 : Nat) : Int) - ((5 : Nat) : Int)⟩] ∧
      ((∃ s ∈ (handle freshWorld malformedPost 5 9).1.trace,
          (Stage.routePath s).isSome = true) → label ∈ registeredRoutes) ∧
      (Stage.notFound ∈ (handle freshWorld malformedPost 5 9).1.trace → label = "/") ∧
      ((∀ s ∈ (handle freshWorld malformedPost 5 9).1.trace, Stage.routePath s = none) →
        Stage.notFound ∉ (handle freshWorld malformedPost 5 9).1.trace →
        label = pathString malformedPost.path) :=
  ⟨by decide, (route_label_of_sample freshWorld malformedPost 5 9 (by decide)).2⟩

/-- Counterexample to C10: a client that used up its hundred requests in the
window opened at time 0 sends an `OPTIONS /api/data` at time 5, inside the
window; `cors` answers it 204 in front of the limiter, so this request to the
rate-limited prefix is neither refused nor counted. -/
theorem preflight_not_limited :
    (admissions freshWorld.limiter "10.0.0.1" (0 :: List.replicate 99 5)).1 "10.0.0.1"
      = saturatedWorld.limiter "10.0.0.1" ∧
    saturatedWorld.limiter "10.0.0.1" = some ⟨0, 100⟩ ∧
    preflightRequest.path.head? = some "api" ∧
    (handle saturatedWorld preflightRequest 5 9).1.statusCode = 204 ∧
    (handle saturatedWorld preflightRequest 5 9).1.trace = [.helmet, .cors] ∧
    (handle saturatedWorld preflightRequest 5 9).2.limiter "10.0.0.1" = some ⟨0, 100⟩ := by
  refine ⟨?_, by decide, by decide, by decide, by decide, by decide⟩
  have h := (admissions_in_window "10.0.0.1" 0 (List.replicate 99 5)
    (admission windowMs maxRequests freshWorld.limiter "10.0.0.1" 0).1 1
    (admission_opens_window freshWorld.limiter "10.0.0.1" 0
      (fun r h => by simp [freshWorld, World.init] at h)).1
    (fun t ht => by rw [List.eq_of_mem_replicate ht]; decide)).1
  rw [admissions]
  exact h.trans (by decide)

/-- Claim C10, amended. With the window of 900000 ms and the cap of 100, for
every client: of 101 counted requests in the window opened by the first, the
first 100 are admitted and the 101st is refused; the first request after the
window has expired is admitted with the count reset to 1; requests of other
clients leave the record of the client unchanged. A request is counted by the
limiter exactly when it lies below `/api` and is not an `OPTIONS` request: an
`OPTIONS` request is answered 204 by `cors` and a request outside `/api` passes
by, both leaving the store unchanged. A request is answered 429 exactly when it
is counted and refused, and then no layer behind the limiter runs; a counted
request that is admitted goes on to the metrics middleware and the body
parsers. -/
theorem rate_limit_window (store : LimiterStore) (client : String) (t0 : Nat) (ts : List Nat)
    (tNext : Nat) (w : World) (req : Request) (now finishedAt : Nat)
    (hfresh : ∀ r, store client = some r → r.start + windowMs ≤ t0)
    (hwin : ∀ t ∈ ts, t < t0 + windowMs) (hlen : ts.length = 100)
    (hroll : t0 + windowMs ≤ tNext) :
    windowMs = 900000 ∧ maxRequests = 100 ∧
    (admissions store client (t0 :: ts)).2 = List.replicate 100 true ++ [false] ∧
    (admission windowMs maxRequests (admissions store client (t0 :: ts)).1 client tNext).2
      = true ∧
    (admission windowMs maxRequests (admissions store client (t0 :: ts)).1 client tNext).1
      client = some ⟨tNext, 1⟩ ∧
    (∀ other t, other ≠ client →
      (admission windowMs maxRequests store other t).1 client = store client) ∧
    (Stage.limiter ∈ (handle w req now finishedAt).1.trace ↔
      req.method ≠ "OPTIONS" ∧ req.path.head? = some "api") ∧
    (handle w req now finishedAt).2.limiter
      = (if req.method ≠ "OPTIONS" ∧ req.path.head? = some "api"
          then (admission windowMs maxRequests w.limiter req.ip now).1 else w.limiter) ∧
    ((handle w req now finishedAt).1.statusCode = 429 ↔
      req.method ≠ "OPTIONS" ∧ req.path.head? = some "api" ∧
        (admission windowMs maxRequests w.limiter req.ip now).2 = false) ∧
    ((handle w req now finishedAt).1.statusCode = 429 →
      (handle w req now finishedAt).1.trace = [.helmet, .cors, .limiter]) ∧
    (req.method ≠ "OPTIONS" → req.path.head? = some "api" →
      (admission windowMs maxRequests w.limiter req.ip now).2 = true →
      Stage.metrics ∈ (handle w req now finishedAt).1.trace ∧
      Stage.json ∈ (handle w req now finishedAt).1.trace) ∧
    (req.method = "OPTIONS" → (handle w req now finishedAt).1.statusCode = 204) := by
  obtain ⟨o1, o2⟩ := admission_opens_window store client t0 hfresh
  obtain ⟨a1, a2⟩ := admissions_in_window client t0 ts _ 1 o1 hwin
  have hroll' : ∀ r, (admissions store client (t0 :: ts)).1 client = some r →
      r.start + windowMs ≤ tNext := by
    intro r hr
    simp only [admissions] at hr
    rw [a1] at hr
    cases hr
    exact hroll
  obtain ⟨n1, n2⟩ := admission_opens_window _ client tNext hroll'
  refine ⟨by decide, rfl, ?_, n2, n1,
    fun other t ho => admission_other _ _ store client other t ho,
    limiter_pipeline w req now finishedAt⟩
  simp only [admissions, o2, a2, hlen]
  decide

/-- Witness of C10 amended: a client that sends a first request at time 0 and a
hundred more at time 5 is refused at the 101st and admitted again at time
900000; the refused `GET /api/data` is answered 429 by the limiter, the
admitted one reaches the metrics middleware and the JSON parser, and the
`OPTIONS /api/data` is answered 204. -/
theorem rate_limit_window_witness :
    (∀ r, freshWorld.limiter "10.0.0.1" = some r → r.start + windowMs ≤ 0) ∧
    (∀ t ∈ List.replicate 100 5, t < 0 + windowMs) ∧
    (List.replicate 100 5).length = 100 ∧
    0 + windowMs ≤ 900000 ∧
    (admissions freshWorld.limiter "10.0.0.1" (0 :: List.replicate 100 5)).2
      = List.replicate 100 true ++ [false] ∧
    (admission windowMs maxRequests
      (admissions freshWorld.limiter "10.0.0.1" (0 :: List.replicate 100 5)).1
      "10.0.0.1" 900000).2 = true ∧
    (handle saturatedWorld apiDataRequest 5 9).1.statusCode = 429 ∧
    (handle saturatedWorld apiDataRequest 5 9).1.trace = [.helmet, .cors, .limiter] ∧
    (Stage.metrics ∈ (handle freshWorld apiDataRequest 5 9).1.trace ∧
      Stage.json ∈ (handle freshWorld apiDataRequest 5 9).1.trace) ∧
    (handle saturatedWorld preflightRequest 5 9).1.statusCode = 204 := by
  have hf : ∀ r, freshWorld.limiter "10.0.0.1" = some r → r.start + windowMs ≤ 0 :=
    fun r h => by simp [freshWorld, World.init] at h
  have hw : ∀ t ∈ List.replicate 100 5, t < 0 + windowMs :=
    fun t ht => by rw [List.eq_of_mem_replicate ht]; decide
  have hl : (List.replicate 100 5).length = 100 := by simp
  obtain ⟨-, -, verdicts, rollover, -⟩ :=
    rate_limit_window freshWorld.limiter "10.0.0.1" 0 (List.replicate 100 5) 900000
      freshWorld healthRequest 5 9 hf hw hl (by decide)
  obtain ⟨-, -, -, -, -, -, -, -, refused, alone, -⟩ :=
    rate_limit_window freshWorld.limiter "10.0.0.1" 0 (List.replicate 100 5) 900000
      saturatedWorld apiDataRequest 5 9 hf hw hl (by decide)
  obtain ⟨-, -, -, -, -, -, -, -, -, -, passes, -⟩ :=
    rate_limit_window freshWorld.limiter "10.0.0.1" 0 (List.replicate 100 5) 900000
      freshWorld apiDataRequest 5 9 hf hw hl (by decide)
  obtain ⟨-, -, -, -, -, -, -, -, -, -, -, preflight⟩ :=
    rate_limit_window freshWorld.limiter "10.0.0.1" 0 (List.replicate 100 5) 900000
      saturatedWorld preflightRequest 5 9 hf hw hl (by decide)
  have h429 := refused.mpr ⟨by decide, by decide, by decide⟩
  exact ⟨hf, hw, hl, by decide, verdicts, rollover, h429, alone h429,
    passes (by decide) (by decide) (by decide), preflight (by decide)⟩

end ServerEnhanced
